import Mathlib

/-!
Shallow embedding of the WatermelonDB native database core
(src/native/shared/Database.cpp) together with proofs about the claims of
its specification.

The embedding models:
  - host (JSI) values as an inductive `JSValue`;
  - SQLite column values as an inductive `SqlValue` (the underlying SQL
    engine is a black box per the spec, so its value coercions are modelled
    only as far as the theorems exercise them);
  - the record identity cache as a duplicate-free `List String`;
  - the database object state as `DbState` (underlying engine state, the
    identity cache, and an instrumentation trace of engine calls);
  - C++ exception control flow as the monad-like `DbM` where an error
    result still carries the (mutated) state, matching C++ throw semantics;
  - a failed C `assert` as a distinguished non-catchable error (`Err.abort`),
    since `abort()` is not a C++ exception and bypasses `catch` blocks.

Each public operation of `Database.cpp` that the claims mention is
translated as its own definition, following the source control flow.
-/

namespace Watermelon

/-- Host runtime (JSI) values.  Host numbers are doubles; a double produced
by casting a 64-bit integer is modelled exactly by `number`, while a double
that came from a SQLite FLOAT column is modelled by `floatNum` with an
opaque payload (no claim computes with float payloads). -/
inductive JSValue where
  | null
  | undefined
  | boolean (b : Bool)
  | number (i : Int)
  | floatNum (payload : Int)
  | string (s : String)
  | array (elements : List JSValue)
  | object (properties : List (String × JSValue))

/-- A SQLite column value as seen through the column accessors.
`text none` models a NULL pointer returned by `sqlite3_column_text`
(the defensive branch in the source); `blob` stands for a BLOB or any
other column type the engine could report, which the source rejects. -/
inductive SqlValue where
  | integer (i : Int)
  | float (payload : Int)
  | text (s : Option String)
  | null
  | blob

/-- One result row: column name and column value, in column order. -/
abbrev Row : Type := List (String × SqlValue)

/-- Errors surfaced by the database layer.  `dbError` models a
`dbError(...)` call (a `jsi::JSError` wrapping an underlying engine
failure), `jsError` a directly-thrown `jsi::JSError`; both derive from
`std::exception` and are caught by `catch (const std::exception &)`.
`abort` models a failed C `assert`, which terminates without unwinding
and is therefore not caught. -/
inductive Err where
  | dbError (message : String)
  | jsError (message : String)
  | abort (message : String)

/-- Instrumentation: one call into the underlying SQL engine.  `exec` is
the prepare/bind/step path of `executeUpdate`, `execMultiple` is
`sqlite3_exec` (used by `executeMultiple`), `query` is the
prepare/bind/step path of a row-returning query, and `dbConfig` is
`sqlite3_db_config`. -/
inductive Call where
  | exec (sql : String) (args : List JSValue)
  | execMultiple (sql : String)
  | query (sql : String) (args : List JSValue)
  | dbConfig (option : Int) (value : Int)

/-- `cacheKey` from Database.cpp: `tableName + "$" + recordId`. -/
def cacheKey (tableName recordId : String) : String :=
  tableName ++ "$" ++ recordId

/-- `Database::isCached`: membership in the identity cache
(`cachedRecords_.find(key) != cachedRecords_.end()`). -/
def isCached (key : String) (cachedRecords : List String) : Bool :=
  cachedRecords.contains key

/-- `Database::markAsCached`: `std::set` insertion (no duplicates). -/
def markAsCached (key : String) (cachedRecords : List String) : List String :=
  if cachedRecords.contains key then cachedRecords else cachedRecords ++ [key]

/-- `Database::removeFromCache`: `std::set` erasure. -/
def removeFromCache (key : String) (cachedRecords : List String) : List String :=
  cachedRecords.filter (fun k => k != key)

/-- The 32-bit wrap-around that `sqlite3_column_int` applies when narrowing
the stored 64-bit integer to a C `int` (the constants are 2 to the 31st
and 2 to the 32nd power, written as literals so proofs can evaluate). -/
def wrap32 (i : Int) : Int :=
  (i + 2147483648) % 4294967296 - 2147483648

/-- Model of `sqlite3_column_int`.  Only the INTEGER case is exercised by
theorems; the engine-defined coercions of the other storage classes are
stand-ins (the engine is a black box per the spec). -/
def sqlColumnInt : SqlValue → Int
  | .integer i => wrap32 i
  | .float payload => payload
  | .text _ => 0
  | .null => 0
  | .blob => 0

/-- Model of `sqlite3_column_text` as used to read record ids: TEXT gives
the string (or a NULL pointer), NULL gives a NULL pointer.  The remaining
engine coercions are stand-ins and are not exercised by theorems. -/
def columnTextStd : SqlValue → Option String
  | .text s => s
  | .null => none
  | .integer i => some (toString i)
  | .float payload => some (toString payload)
  | .blob => some ""

/-- The error message thrown by both result shapers on a BLOB or unknown
column type. -/
def unsupportedColumnMsg : String :=
  "Unable to fetch record from database - unknown column type (WatermelonDB does not support blobs or custom sqlite types"

/-- `jsi::Object::setProperty`: setting an existing property overwrites
it, otherwise the property is appended. -/
def objSet (properties : List (String × JSValue)) (key : String) (v : JSValue) :
    List (String × JSValue) :=
  if properties.any (fun p => p.1 == key) then
    properties.map (fun p => if p.1 == key then (key, v) else p)
  else
    properties ++ [(key, v)]

/-- Property lookup on a host object. -/
def objGet (properties : List (String × JSValue)) (key : String) : Option JSValue :=
  (properties.find? (fun p => p.1 == key)).map (fun p => p.2)

/-- Loop of `Database::resultDictionary`, accumulating the host object. -/
def resultDictionaryGo (properties : List (String × JSValue)) :
    Row → Except Err (List (String × JSValue))
  | [] => .ok properties
  | (column, v) :: rest =>
    match v with
    | .integer i => resultDictionaryGo (objSet properties column (.number i)) rest
    | .float payload => resultDictionaryGo (objSet properties column (.floatNum payload)) rest
    | .text (some s) => resultDictionaryGo (objSet properties column (.string s)) rest
    | .text none => resultDictionaryGo (objSet properties column .null) rest
    | .null => resultDictionaryGo (objSet properties column .null) rest
    | .blob => .error (.jsError unsupportedColumnMsg)

/-- `Database::resultDictionary`: shape the current row as a host object
keyed by column names. -/
def resultDictionary (row : Row) : Except Err (List (String × JSValue)) :=
  resultDictionaryGo [] row

/-- Loop of `Database::resultArray`, accumulating the host array. -/
def resultArrayGo (acc : List JSValue) : Row → Except Err (List JSValue)
  | [] => .ok acc
  | (_, v) :: rest =>
    match v with
    | .integer i => resultArrayGo (acc ++ [.number i]) rest
    | .float payload => resultArrayGo (acc ++ [.floatNum payload]) rest
    | .text (some s) => resultArrayGo (acc ++ [.string s]) rest
    | .text none => resultArrayGo (acc ++ [.null]) rest
    | .null => resultArrayGo (acc ++ [.null]) rest
    | .blob => .error (.jsError unsupportedColumnMsg)

/-- `Database::resultArray`: shape the current row as a positional host
array of column values. -/
def resultArray (row : Row) : Except Err (List JSValue) :=
  resultArrayGo [] row

/-- `Database::resultColumns`: the Column Header Array (column names in
order). -/
def resultColumns (row : Row) : List JSValue :=
  row.map (fun c => JSValue.string c.1)

/-- Whether a column value is of a type the shapers support. -/
def supportedCol : SqlValue → Bool
  | .integer _ => true
  | .float _ => true
  | .text _ => true
  | .null => true
  | .blob => false

/-- The column-type mapping shared by both shapers, as a total function
(the `blob` case is never reached on rows where `supportedCol` holds). -/
def columnJS : SqlValue → JSValue
  | .integer i => .number i
  | .float payload => .floatNum payload
  | .text (some s) => .string s
  | .text none => .null
  | .null => .null
  | .blob => .null

/-! ## Statement cache and binder (components B and C) -/

/-- A prepared statement.  `paramCount` is `sqlite3_bind_parameter_count`;
`bound` records the values bound so far; `stepped` records whether the
statement has been stepped since the last reset (`sqlite3_reset` clears
the transient execution state). -/
structure Stmt where
  sql : String
  paramCount : Nat
  bound : List SqlValue
  stepped : Bool

/-- `sqlite3_reset`: clear the transient state of a prepared statement. -/
def sqliteReset (stmt : Stmt) : Stmt :=
  { stmt with bound := [], stepped := false }

/-- Lookup in `cachedStatements_` (a map keyed by exact SQL text). -/
def lookupStmt (sql : String) : List (String × Stmt) → Option Stmt
  | [] => none
  | (k, stmt) :: rest => if k == sql then some stmt else lookupStmt sql rest

/-- Store back the (mutated) statement under its SQL key. -/
def storeStmt (sql : String) (stmt : Stmt) : List (String × Stmt) → List (String × Stmt)
  | [] => [(sql, stmt)]
  | (k, s) :: rest =>
    if k == sql then (k, stmt) :: rest else (k, s) :: storeStmt sql stmt rest

/-- `Database::prepareQuery`: reuse the cached statement for this SQL text
(resetting it first), otherwise compile it — `compile` models
`sqlite3_prepare_v2` and yields the placeholder count — and cache it.  On a
compile failure the partial handle is finalized and a `dbError` is thrown. -/
def prepareQuery (compile : String → Except String Nat) (sql : String)
    (cache : List (String × Stmt)) : Except Err (Stmt × List (String × Stmt)) :=
  match lookupStmt sql cache with
  | some stmt =>
    let stmt2 := sqliteReset stmt
    .ok (stmt2, storeStmt sql stmt2 cache)
  | none =>
    match compile sql with
    | .ok n =>
      let stmt2 : Stmt := ⟨sql, n, [], false⟩
      .ok (stmt2, storeStmt sql stmt2 cache)
    | .error _ => .error (.dbError "Failed to prepare query statement")

/-- Whether a host value is one the binder accepts. -/
def bindableJS : JSValue → Bool
  | .null => true
  | .undefined => true
  | .string _ => true
  | .number _ => true
  | .floatNum _ => true
  | .boolean _ => true
  | .array _ => false
  | .object _ => false

/-- What one bound host value stores in the statement: null and undefined
bind SQL NULL, strings bind TEXT, numbers bind DOUBLE, booleans bind
INTEGER 0/1.  Only defined on bindable values (callers check first). -/
def bindValue : JSValue → SqlValue
  | .null => .null
  | .undefined => .null
  | .string s => .text (some s)
  | .number i => .float i
  | .floatNum payload => .float payload
  | .boolean b => .integer (if b then 1 else 0)
  | .array _ => .null
  | .object _ => .null

/-- The argument loop of `Database::bindArgs`: bind each value in turn; an
object or unknown value resets the statement and throws. -/
def bindArgsLoop (stmt : Stmt) : List JSValue → Except Err Unit × Stmt
  | [] => (.ok (), stmt)
  | v :: rest =>
    match v with
    | .object _ =>
      (.error (.jsError "Invalid argument type (object) for query"), sqliteReset stmt)
    | .array _ =>
      (.error (.jsError "Invalid argument type (object) for query"), sqliteReset stmt)
    | _ => bindArgsLoop { stmt with bound := stmt.bound ++ [bindValue v] } rest

/-- `Database::bindArgs`: an argument-count mismatch resets the statement
and throws (the source message contains an apostrophe, paraphrased here);
otherwise each argument is bound in order. -/
def bindArgs (stmt : Stmt) (arguments : List JSValue) : Except Err Unit × Stmt :=
  if arguments.length ≠ stmt.paramCount then
    (.error (.jsError "Number of args passed to query does not match number of arg placeholders"),
     sqliteReset stmt)
  else
    bindArgsLoop stmt arguments

/-- `prepareQuery` followed by `bindArgs`, the statement-level prefix of
`executeQuery` / `executeUpdate`, acting on the statement cache. -/
def prepareAndBind (compile : String → Except String Nat) (sql : String)
    (arguments : List JSValue) (cache : List (String × Stmt)) :
    Except Err Unit × List (String × Stmt) :=
  match prepareQuery compile sql cache with
  | .error e => (.error e, cache)
  | .ok (stmt, cache1) =>
    let r := bindArgs stmt arguments
    (r.1, storeStmt sql r.2 cache1)

/-! ## The underlying SQL engine as a black box, and the database state

The spec treats the SQL engine as an external collaborator, so the
transaction-level operations are parameterised by an abstract `Engine`:
`exec` covers the prepare/bind/step path of a mutating statement,
`execMultiple` is `sqlite3_exec`, `runQuery` covers the prepare/bind and
row-stepping of a row-returning statement, and `dbConfig` is
`sqlite3_db_config`.  Engine state is an arbitrary type `δ`; queries do
not mutate it. -/

structure Engine (δ : Type) where
  exec : String → List JSValue → δ → Except String δ
  execMultiple : String → δ → Except String δ
  runQuery : String → List JSValue → δ → Except String (List Row)
  dbConfig : Int → Int → δ → Except String δ

/-- The state of a `Database` object: the underlying engine state, the
record identity cache (`cachedRecords_`), and an instrumentation trace of
every call made into the engine. -/
structure DbState (δ : Type) where
  db : δ
  cachedRecords : List String
  trace : List Call

/-- A database computation: C++ code that may throw.  An error result
still carries the state at the point of the throw (C++ exceptions do not
roll mutations back). -/
def DbM (δ : Type) (α : Type) : Type :=
  DbState δ → Except Err α × DbState δ

def dbmPure {δ α : Type} (a : α) : DbM δ α := fun s => (.ok a, s)

def dbmBind {δ α β : Type} (m : DbM δ α) (f : α → DbM δ β) : DbM δ β := fun s =>
  match m s with
  | (.ok a, s1) => f a s1
  | (.error e, s1) => (.error e, s1)

def throwM {δ α : Type} (e : Err) : DbM δ α := fun s => (.error e, s)

/-- `try { body } catch (const std::exception &ex) { handler }`: `dbError`
and `jsError` derive from `std::exception` and are caught; `abort` (a
failed C `assert`) terminates without unwinding and passes through. -/
def catchStd {δ α : Type} (body : DbM δ α) (handler : Err → DbM δ α) : DbM δ α := fun s =>
  match body s with
  | (.ok a, s1) => (.ok a, s1)
  | (.error e, s1) =>
    match e with
    | .abort m => (.error (.abort m), s1)
    | .dbError m => handler (.dbError m) s1
    | .jsError m => handler (.jsError m) s1

/-- Append an engine call to the instrumentation trace. -/
def pushCall {δ : Type} (c : Call) (s : DbState δ) : DbState δ :=
  { s with trace := s.trace ++ [c] }

/-- A failed C `assert(cond)` aborts; otherwise nothing happens. -/
def cAssert {δ : Type} (cond : Bool) (msg : String) : DbM δ Unit := fun s =>
  if cond then (.ok (), s) else (.error (.abort msg), s)

/-- `Database::executeUpdate(sql, args)`: prepare, bind, and step the
statement, requiring `SQLITE_DONE`.  Any failure along that path surfaces
as a `dbError` carrying the engine message. -/
def executeUpdate {δ : Type} (E : Engine δ) (sql : String) (args : List JSValue) :
    DbM δ Unit := fun s =>
  match E.exec sql args s.db with
  | .ok d2 => (.ok (), pushCall (.exec sql args) { s with db := d2 })
  | .error m => (.error (.dbError m), pushCall (.exec sql args) s)

/-- `Database::executeMultiple`: `sqlite3_exec`; an error message becomes
a thrown `jsi::JSError`. -/
def executeMultiple {δ : Type} (E : Engine δ) (sql : String) : DbM δ Unit := fun s =>
  match E.execMultiple sql s.db with
  | .ok d2 => (.ok (), pushCall (.execMultiple sql) { s with db := d2 })
  | .error m => (.error (.jsError m), pushCall (.execMultiple sql) s)

/-- `Database::executeQuery` followed by stepping out all result rows.
Queries leave the engine state unchanged. -/
def runQueryAll {δ : Type} (E : Engine δ) (sql : String) (args : List JSValue) :
    DbM δ (List Row) := fun s =>
  match E.runQuery sql args s.db with
  | .ok rows => (.ok rows, pushCall (.query sql args) s)
  | .error m => (.error (.dbError m), pushCall (.query sql args) s)

/-- A `sqlite3_db_config` call whose failure throws the given message. -/
def dbConfigOr {δ : Type} (E : Engine δ) (option value : Int) (failMsg : String) :
    DbM δ Unit := fun s =>
  match E.dbConfig option value s.db with
  | .ok d2 => (.ok (), pushCall (.dbConfig option value) { s with db := d2 })
  | .error _ => (.error (.jsError failMsg), pushCall (.dbConfig option value) s)

/-- `Database::beginTransaction`. -/
def beginTransaction {δ : Type} (E : Engine δ) : DbM δ Unit :=
  executeUpdate E "begin exclusive transaction" []

/-- `Database::commit`. -/
def commitTransaction {δ : Type} (E : Engine δ) : DbM δ Unit :=
  executeUpdate E "commit transaction" []

/-- `Database::rollback`: attempt the rollback statement and swallow any
error it raises (logging is not modelled). -/
def rollbackTransaction {δ : Type} (E : Engine δ) : DbM δ Unit := fun s =>
  match executeUpdate E "rollback transaction" [] s with
  | (.ok _, s1) => (.ok (), s1)
  | (.error _, s1) => (.ok (), s1)

/-! ## Query facade, batch, schema operations -/

/-- `Database::getUserVersion`: query `pragma user_version`, require a row
(`getRow`), assert a single column, and read it with
`sqlite3_column_int`. -/
def getUserVersion {δ : Type} (E : Engine δ) : DbM δ Int :=
  dbmBind (runQueryAll E "pragma user_version" []) (fun rows =>
    match rows with
    | [] => throwM (.dbError "Failed to get a row for query")
    | [] :: _ => throwM (.abort "sqlite3_data_count(statement.stmt) == 1")
    | ((_, v) :: restCols) :: _ =>
      dbmBind (cAssert restCols.isEmpty "sqlite3_data_count(statement.stmt) == 1") (fun _ =>
        dbmPure (sqlColumnInt v)))

/-- `Database::setUserVersion`: the version is inlined into the pragma
(placeholders are not accepted there). -/
def setUserVersion {δ : Type} (E : Engine δ) (newVersion : Int) : DbM δ Unit :=
  executeUpdate E ("pragma user_version = " ++ toString newVersion) []

/-- The SQL text `Database::find` interpolates the table name into. -/
def findSql (table : String) : String :=
  "select * from `" ++ table ++ "` where id == ? limit 1"

/-- `Database::find`: a cached record returns its id alone; otherwise the
record is selected, `DONE` yields host null, and a row is shaped to a
dictionary and the record marked cached. -/
def find {δ : Type} (E : Engine δ) (table id : String) : DbM δ JSValue := fun s =>
  if isCached (cacheKey table id) s.cachedRecords then
    (.ok (.string id), s)
  else
    (dbmBind (runQueryAll E (findSql table) [JSValue.string id]) (fun rows =>
      match rows with
      | [] => dbmPure JSValue.null
      | row :: _ =>
        match resultDictionary row with
        | .ok props => fun s2 =>
          (.ok (.object props),
           { s2 with cachedRecords := markAsCached (cacheKey table id) s2.cachedRecords })
        | .error e => throwM e)) s

/-- Message of the failed assert `column_name(0) == "id"` in the query
loops. -/
def firstColumnIdMsg : String :=
  "std::string(sqlite3_column_name(statement.stmt, 0)) == \"id\""

/-- The row loop of `Database::query`: each row must have first column
`id` (asserted) with a non-null value; a cached record contributes its id
string, otherwise the record is marked cached and the row shaped to a
dictionary.  Note the mark happens before the shaping, so a row whose
shaping fails is still marked. -/
def queryLoop {δ : Type} (table : String) :
    List Row → List JSValue → DbM δ JSValue
  | [], acc => fun s => (.ok (.array acc), s)
  | row :: rest, acc => fun s =>
    match row with
    | [] => (.error (.abort firstColumnIdMsg), s)
    | (columnName, v) :: _ =>
      if columnName == "id" then
        match columnTextStd v with
        | none => (.error (.jsError "Failed to get ID of a record"), s)
        | some id =>
          if isCached (cacheKey table id) s.cachedRecords then
            queryLoop table rest (acc ++ [JSValue.string id]) s
          else
            match resultDictionary row with
            | .ok props =>
              queryLoop table rest (acc ++ [JSValue.object props])
                { s with cachedRecords := markAsCached (cacheKey table id) s.cachedRecords }
            | .error e =>
              (.error e,
               { s with cachedRecords := markAsCached (cacheKey table id) s.cachedRecords })
      else (.error (.abort firstColumnIdMsg), s)

/-- `Database::query`. -/
def query {δ : Type} (E : Engine δ) (table sql : String) (args : List JSValue) :
    DbM δ JSValue :=
  dbmBind (runQueryAll E sql args) (fun rows => queryLoop table rows [])

/-- The row loop of `Database::queryAsArray`: as `queryLoop`, except that
while the result accumulator is still empty the Column Header Array is
pushed first, and rows are shaped positionally. -/
def queryAsArrayLoop {δ : Type} (table : String) :
    List Row → List JSValue → DbM δ JSValue
  | [], acc => fun s => (.ok (.array acc), s)
  | row :: rest, acc => fun s =>
    match row with
    | [] => (.error (.abort firstColumnIdMsg), s)
    | (columnName, v) :: _ =>
      if columnName == "id" then
        match columnTextStd v with
        | none => (.error (.jsError "Failed to get ID of a record"), s)
        | some id =>
          let acc1 := if acc.isEmpty then [JSValue.array (resultColumns row)] else acc
          if isCached (cacheKey table id) s.cachedRecords then
            queryAsArrayLoop table rest (acc1 ++ [JSValue.string id]) s
          else
            match resultArray row with
            | .ok values =>
              queryAsArrayLoop table rest (acc1 ++ [JSValue.array values])
                { s with cachedRecords := markAsCached (cacheKey table id) s.cachedRecords }
            | .error e =>
              (.error e,
               { s with cachedRecords := markAsCached (cacheKey table id) s.cachedRecords })
      else (.error (.abort firstColumnIdMsg), s)

/-- `Database::queryAsArray`. -/
def queryAsArray {δ : Type} (E : Engine δ) (table sql : String) (args : List JSValue) :
    DbM δ JSValue :=
  dbmBind (runQueryAll E sql args) (fun rows => queryAsArrayLoop table rows [])

/-- `Database::count`: require a row (`getRow`), assert a single column,
and return `sqlite3_column_int` of it as a host number. -/
def count {δ : Type} (E : Engine δ) (sql : String) (args : List JSValue) :
    DbM δ JSValue :=
  dbmBind (runQueryAll E sql args) (fun rows =>
    match rows with
    | [] => throwM (.dbError "Failed to get a row for query")
    | [] :: _ => throwM (.abort "sqlite3_data_count(statement.stmt) == 1")
    | ((_, v) :: restCols) :: _ =>
      dbmBind (cAssert restCols.isEmpty "sqlite3_data_count(statement.stmt) == 1") (fun _ =>
        dbmPure (JSValue.number (sqlColumnInt v))))

/-- One batch operation after decoding its 4-element wire array. -/
structure BatchOp where
  cacheBehavior : Int
  table : String
  sql : String
  argsBatches : List (List JSValue)

/-- The inner loop of `Database::batch` over the argument batches of one
operation: execute the statement, then (for a nonzero cache behavior)
read the first argument as the record id — a non-string first argument
makes `jsi::Value::getString` throw — and record the cache key in the
pending added or removed list. -/
def batchOpArgs {δ : Type} (E : Engine δ) (cacheBehavior : Int) (table sql : String) :
    List (List JSValue) → List String → List String → DbM δ (List String × List String)
  | [], addedIds, removedIds => dbmPure (addedIds, removedIds)
  | args :: rest, addedIds, removedIds =>
    dbmBind (executeUpdate E sql args) (fun _ =>
      if cacheBehavior ≠ 0 then
        match args.head? with
        | some (JSValue.string id) =>
          if cacheBehavior = 1 then
            batchOpArgs E cacheBehavior table sql rest
              (addedIds ++ [cacheKey table id]) removedIds
          else if cacheBehavior = -1 then
            batchOpArgs E cacheBehavior table sql rest
              addedIds (removedIds ++ [cacheKey table id])
          else
            batchOpArgs E cacheBehavior table sql rest addedIds removedIds
        | _ => throwM (.jsError "Expected the first query argument to be a string record id")
      else batchOpArgs E cacheBehavior table sql rest addedIds removedIds)

/-- The outer loop of `Database::batch` over the operations, threading the
pending cache deltas. -/
def batchBody {δ : Type} (E : Engine δ) :
    List BatchOp → List String → List String → DbM δ (List String × List String)
  | [], addedIds, removedIds => dbmPure (addedIds, removedIds)
  | op :: rest, addedIds, removedIds =>
    dbmBind (batchOpArgs E op.cacheBehavior op.table op.sql op.argsBatches
        addedIds removedIds) (fun p =>
      batchBody E rest p.1 p.2)

/-- After a successful commit: all pending additions are applied to the
identity cache, then all pending removals. -/
def applyCacheDeltas {δ : Type} (addedIds removedIds : List String) : DbM δ Unit := fun s =>
  let afterAdds := addedIds.foldl (fun c k => markAsCached k c) s.cachedRecords
  let afterRemovals := removedIds.foldl (fun c k => removeFromCache k c) afterAdds
  (.ok (), { s with cachedRecords := afterRemovals })

/-- The shared `catch (const std::exception &ex) { rollback(); throw; }`
handler of `batch`, `unsafeResetDatabase` and `migrate`. -/
def rollbackAndRethrow {δ α : Type} (E : Engine δ) : Err → DbM δ α :=
  fun e => dbmBind (rollbackTransaction E) (fun _ => throwM e)

/-- The protected region of `Database::batch`: the operation loop followed
by the commit, yielding the pending cache deltas. -/
def batchTry {δ : Type} (E : Engine δ) (operations : List BatchOp) :
    DbM δ (List String × List String) :=
  dbmBind (batchBody E operations [] []) (fun p =>
    dbmBind (commitTransaction E) (fun _ => dbmPure p))

/-- `Database::batch`: begin a transaction; run all operations collecting
the pending cache deltas; commit inside the protected region; on any
caught failure roll back and rethrow; only after a successful commit apply
the cache deltas. -/
def batch {δ : Type} (E : Engine δ) (operations : List BatchOp) : DbM δ Unit :=
  dbmBind (beginTransaction E) (fun _ =>
    dbmBind (catchStd (batchTry E operations) (rollbackAndRethrow E))
      (fun p => applyCacheDeltas p.1 p.2))

/-- Empty the identity cache (`cachedRecords_ = {}`). -/
def clearCache {δ : Type} : DbM δ Unit := fun s =>
  (.ok (), { s with cachedRecords := [] })

/-- The `SQLITE_DBCONFIG_RESET_DATABASE` option code. -/
def resetDatabaseOption : Int := 1009

/-- The protected region of `Database::unsafeResetDatabase`: clear the
identity cache, run the schema script, set the user version, commit. -/
def resetTry {δ : Type} (E : Engine δ) (schema : String) (schemaVersion : Int) : DbM δ Unit :=
  dbmBind clearCache (fun _ =>
  dbmBind (executeMultiple E schema) (fun _ =>
  dbmBind (setUserVersion E schemaVersion) (fun _ =>
  commitTransaction E)))

/-- `Database::unsafeResetDatabase`: enable the defensive reset mode,
vacuum outside any transaction, disable reset mode, then in a transaction
clear the identity cache, run the schema script, set the user version and
commit — rolling back and rethrowing on a caught failure. -/
def unsafeResetDatabase {δ : Type} (E : Engine δ) (schema : String) (schemaVersion : Int) :
    DbM δ Unit :=
  dbmBind (dbConfigOr E resetDatabaseOption 1 "Failed to enable reset database mode") (fun _ =>
  dbmBind (executeMultiple E "vacuum") (fun _ =>
  dbmBind (dbConfigOr E resetDatabaseOption 0 "Failed to disable reset database mode") (fun _ =>
  dbmBind (beginTransaction E) (fun _ =>
    catchStd (resetTry E schema schemaVersion) (rollbackAndRethrow E)))))

/-- The protected region of `Database::migrate`: assert the current user
version matches, run the migration script, set the user version, commit. -/
def migrateTry {δ : Type} (E : Engine δ) (migrationSql : String)
    (fromVersion toVersion : Int) : DbM δ Unit :=
  dbmBind (getUserVersion E) (fun v =>
  dbmBind (cAssert (v == fromVersion) "Incompatible migration set") (fun _ =>
  dbmBind (executeMultiple E migrationSql) (fun _ =>
  dbmBind (setUserVersion E toVersion) (fun _ =>
  commitTransaction E))))

/-- `Database::migrate`: in a transaction, assert that the current user
version equals `fromVersion`, run the migration script, set the user
version, and commit — rolling back and rethrowing on a caught failure.
The version check is a C `assert`, so its failure aborts rather than
unwinding. -/
def migrate {δ : Type} (E : Engine δ) (migrationSql : String) (fromVersion toVersion : Int) :
    DbM δ Unit :=
  dbmBind (beginTransaction E) (fun _ =>
    catchStd (migrateTry E migrationSql fromVersion toVersion) (rollbackAndRethrow E))

/-! ## Specification-side functions

These restate what the claims say, independently of the stateful loops,
so that the theorems relate the code to them. -/

/-- The cache key a batch operation with behavior +1 derives from one
argument batch, when its first argument is a string. -/
def addKeyOf (cacheBehavior : Int) (table : String) (args : List JSValue) : Option String :=
  if cacheBehavior = 1 then
    match args.head? with
    | some (JSValue.string id) => some (cacheKey table id)
    | _ => none
  else none

/-- The cache key a batch operation with behavior −1 derives from one
argument batch, when its first argument is a string. -/
def removeKeyOf (cacheBehavior : Int) (table : String) (args : List JSValue) : Option String :=
  if cacheBehavior = -1 then
    match args.head? with
    | some (JSValue.string id) => some (cacheKey table id)
    | _ => none
  else none

/-- All cache keys a batch would add on success, in order. -/
def addedKeys : List BatchOp → List String
  | [] => []
  | op :: rest => op.argsBatches.filterMap (addKeyOf op.cacheBehavior op.table) ++ addedKeys rest

/-- All cache keys a batch would remove on success, in order. -/
def removedKeys : List BatchOp → List String
  | [] => []
  | op :: rest => op.argsBatches.filterMap (removeKeyOf op.cacheBehavior op.table) ++ removedKeys rest

/-- Whether a batch operation mentions the given cache key: it has a
nonzero cache behavior and some argument batch whose first argument is the
record id forming that key. -/
def mentionsKey (key : String) (op : BatchOp) : Bool :=
  decide (op.cacheBehavior ≠ 0) &&
    op.argsBatches.any (fun args =>
      match args.head? with
      | some (JSValue.string id) => cacheKey op.table id == key
      | _ => false)

/-- The cache behavior of the last operation in the batch mentioning the
given key, if any — the quantity claim C2 is phrased in terms of. -/
def lastBehaviorFor (key : String) (ops : List BatchOp) : Option Int :=
  ((ops.filter (mentionsKey key)).getLast?).map BatchOp.cacheBehavior

/-- The record id of a row as the query loops read it (first column,
through `sqlite3_column_text`). -/
def rowId (row : Row) : String :=
  match row with
  | (_, v) :: _ => (columnTextStd v).getD ""
  | [] => ""

/-- The positional shape of a row as a total function (agrees with
`resultArray` on rows without unsupported columns). -/
def rowValues (row : Row) : List JSValue :=
  row.map (fun c => columnJS c.2)

/-- Specification of the row elements `queryAsArray` returns after the
header: an id string for a record already cached at that row's turn,
otherwise the positional array, with the record marked cached. -/
def shapedElems (table : String) : List Row → List String → List JSValue
  | [], _ => []
  | row :: rest, c =>
    let key := cacheKey table (rowId row)
    if isCached key c then
      JSValue.string (rowId row) :: shapedElems table rest c
    else
      JSValue.array (rowValues row) :: shapedElems table rest (markAsCached key c)

/-- A row has only supported column types. -/
def supportedRow (row : Row) : Bool :=
  row.all (fun c => supportedCol c.2)

/-- A row the `query` loop processes without failing regardless of the
cache: first column named `id`, non-null id text, and no unsupported
column. -/
def goodRow (row : Row) : Bool :=
  match row with
  | (columnName, v) :: _ => columnName == "id" && (columnTextStd v).isSome && supportedRow row
  | [] => false

/-! ## Concrete fixtures used by the witnesses and counterexamples -/

/-- An empty starting state over the trivial engine state. -/
def st0 : DbState Unit := { db := (), cachedRecords := [], trace := [] }

/-- An engine on which everything succeeds and every query is empty. -/
def okE : Engine Unit where
  exec := fun _ _ d => .ok d
  execMultiple := fun _ d => .ok d
  runQuery := fun _ _ _ => .ok []
  dbConfig := fun _ _ d => .ok d

/-- A batch that removes record `a` of table `t` from the cache and then
re-adds it: the last operation mentioning `t$a` has behavior +1. -/
def ops2 : List BatchOp :=
  [⟨-1, "t", "delete from t where id = ?", [[JSValue.string "a"]]⟩,
   ⟨1, "t", "insert into t values (?)", [[JSValue.string "a"]]⟩]

/-- An engine reporting user version 3. -/
def verE : Engine Unit where
  exec := fun _ _ d => .ok d
  execMultiple := fun _ d => .ok d
  runQuery := fun sql _ _ =>
    if sql == "pragma user_version" then .ok [[("user_version", SqlValue.integer 3)]]
    else .ok []
  dbConfig := fun _ _ d => .ok d

/-- The row of record `a` in table `t`. -/
def rowA : Row := [("id", SqlValue.text (some "a")), ("v", SqlValue.text (some "x"))]

/-- An engine on which `find` on table `t` sees record `a`. -/
def findE : Engine Unit where
  exec := fun _ _ d => .ok d
  execMultiple := fun _ d => .ok d
  runQuery := fun sql _ _ => if sql == findSql "t" then .ok [rowA] else .ok []
  dbConfig := fun _ _ d => .ok d

/-- A batch inserting record `a` into table `t` with cache behavior +1. -/
def ops4 : List BatchOp :=
  [⟨1, "t", "insert into t values (?, ?)", [[JSValue.string "a", JSValue.string "x"]]⟩]

/-- An engine on which the query `"empty"` has no rows and any other
query has exactly one single-column row. -/
def countE : Engine Unit where
  exec := fun _ _ d => .ok d
  execMultiple := fun _ d => .ok d
  runQuery := fun sql _ _ =>
    if sql == "empty" then .ok [] else .ok [[("c", SqlValue.integer 5)]]
  dbConfig := fun _ _ d => .ok d

/-- An engine on which every query yields one two-column row. -/
def twoColE : Engine Unit where
  exec := fun _ _ d => .ok d
  execMultiple := fun _ d => .ok d
  runQuery := fun _ _ _ => .ok [[("a", SqlValue.integer 1), ("b", SqlValue.integer 2)]]
  dbConfig := fun _ _ d => .ok d

/-- An engine on which every query yields two single-column rows. -/
def twoRowsE : Engine Unit where
  exec := fun _ _ d => .ok d
  execMultiple := fun _ d => .ok d
  runQuery := fun _ _ _ => .ok [[("c", SqlValue.integer 5)], [("c", SqlValue.integer 7)]]
  dbConfig := fun _ _ d => .ok d

/-- Two two-column rows with ids `a` and `b`. -/
def rowsAB : List Row :=
  [[("id", SqlValue.text (some "a")), ("n", SqlValue.integer 1)],
   [("id", SqlValue.text (some "b")), ("n", SqlValue.integer 2)]]

/-- An engine on which every query yields `rowsAB`. -/
def qaE : Engine Unit where
  exec := fun _ _ d => .ok d
  execMultiple := fun _ d => .ok d
  runQuery := fun _ _ _ => .ok rowsAB
  dbConfig := fun _ _ d => .ok d

/-- A state in which record `b` of table `t` is already cached. -/
def stB : DbState Unit := { db := (), cachedRecords := ["t$b"], trace := [] }

/-- An engine on which `vacuum` succeeds but any other multi-statement
script (such as a schema) fails. -/
def resetE : Engine Unit where
  exec := fun _ _ d => .ok d
  execMultiple := fun sql d => if sql == "vacuum" then .ok d else .error "schema script failed"
  runQuery := fun _ _ _ => .ok []
  dbConfig := fun _ _ d => .ok d

/-- A state in which record `a` of table `t` is cached. -/
def stA : DbState Unit := { db := (), cachedRecords := ["t$a"], trace := [] }

/-- An engine whose queries yield a good row for record `a` followed by a
row with a NULL id. -/
def q10E : Engine Unit where
  exec := fun _ _ d => .ok d
  execMultiple := fun _ d => .ok d
  runQuery := fun _ _ _ =>
    .ok [[("id", SqlValue.text (some "a")), ("v", SqlValue.integer 1)],
         [("id", SqlValue.null)]]
  dbConfig := fun _ _ d => .ok d

/-- A row with two columns that share the name `a`. -/
def dupRow : Row := [("a", SqlValue.integer 1), ("a", SqlValue.integer 2)]

/-- A compiler model on which every statement has two placeholders. -/
def compileW : String → Except String Nat := fun _ => .ok 2

/-- A cached prepared statement with two placeholders. -/
def stmtW : Stmt := { sql := "sqlW", paramCount := 2, bound := [], stepped := false }

/-- A statement cache holding `stmtW`. -/
def cacheW : List (String × Stmt) := [("sqlW", stmtW)]

/-- The dictionary a row shapes to, as a pure association list. -/
def rowProps (row : Row) : List (String × JSValue) :=
  row.map (fun c => (c.1, columnJS c.2))

/-! ## Helper lemmas about the identity cache -/

theorem isCached_iff (key : String) (c : List String) : isCached key c = true ↔ key ∈ c := by
  simp [isCached]

theorem mem_markAsCached (k key : String) (c : List String) :
    k ∈ markAsCached key c ↔ k ∈ c ∨ k = key := by
  unfold markAsCached
  by_cases h : c.contains key
  · simp only [h, if_true]
    constructor
    · exact fun hk => Or.inl hk
    · rintro (hk | rfl)
      · exact hk
      · simpa using h
  · simp only [h]
    simp

theorem mem_removeFromCache (k key : String) (c : List String) :
    k ∈ removeFromCache key c ↔ k ∈ c ∧ k ≠ key := by
  simp [removeFromCache]

theorem mem_foldl_mark (keys : List String) (c : List String) (k : String) :
    k ∈ keys.foldl (fun c2 key => markAsCached key c2) c ↔ k ∈ c ∨ k ∈ keys := by
  induction keys generalizing c with
  | nil => simp
  | cons key rest ih =>
    simp only [List.foldl_cons, ih, mem_markAsCached, List.mem_cons]
    tauto

theorem mem_foldl_remove (keys : List String) (c : List String) (k : String) :
    k ∈ keys.foldl (fun c2 key => removeFromCache key c2) c ↔ k ∈ c ∧ k ∉ keys := by
  induction keys generalizing c with
  | nil => simp
  | cons key rest ih =>
    simp only [List.foldl_cons, ih, mem_removeFromCache, List.mem_cons]
    tauto

/-! ## Helper lemmas about the result shapers -/

theorem supportedRow_cons (name : String) (v : SqlValue) (rest : Row) :
    supportedRow ((name, v) :: rest) = (supportedCol v && supportedRow rest) := rfl

theorem rowValues_cons (name : String) (v : SqlValue) (rest : Row) :
    rowValues ((name, v) :: rest) = columnJS v :: rowValues rest := rfl

theorem rowProps_cons (name : String) (v : SqlValue) (rest : Row) :
    rowProps ((name, v) :: rest) = (name, columnJS v) :: rowProps rest := rfl

theorem resultArrayGo_eq (row : Row) (acc : List JSValue) :
    resultArrayGo acc row =
      if supportedRow row then .ok (acc ++ rowValues row)
      else .error (.jsError unsupportedColumnMsg) := by
  induction row generalizing acc with
  | nil => simp [resultArrayGo, supportedRow, rowValues]
  | cons c rest ih =>
    obtain ⟨name, v⟩ := c
    cases v with
    | integer i =>
      cases hsr : supportedRow rest <;>
        simp [resultArrayGo, ih, hsr, supportedRow_cons, rowValues_cons, supportedCol, columnJS]
    | float p =>
      cases hsr : supportedRow rest <;>
        simp [resultArrayGo, ih, hsr, supportedRow_cons, rowValues_cons, supportedCol, columnJS]
    | text s =>
      cases s <;> cases hsr : supportedRow rest <;>
        simp [resultArrayGo, ih, hsr, supportedRow_cons, rowValues_cons, supportedCol, columnJS]
    | null =>
      cases hsr : supportedRow rest <;>
        simp [resultArrayGo, ih, hsr, supportedRow_cons, rowValues_cons, supportedCol, columnJS]
    | blob => simp [resultArrayGo, supportedRow_cons, supportedCol]

theorem resultArray_eq (row : Row) :
    resultArray row =
      if supportedRow row then .ok (rowValues row)
      else .error (.jsError unsupportedColumnMsg) := by
  have h := resultArrayGo_eq row []
  simpa [resultArray] using h

theorem objSet_append (props : List (String × JSValue)) (key : String) (v : JSValue)
    (h : ∀ p ∈ props, p.1 ≠ key) : objSet props key v = props ++ [(key, v)] := by
  unfold objSet
  have hany : props.any (fun p => p.1 == key) = false := by
    rw [List.any_eq_false]
    intro p hp
    simpa using h p hp
  simp [hany]

theorem resultDictionaryGo_eq (row : Row) (props : List (String × JSValue))
    (hnd : (row.map Prod.fst).Nodup)
    (hdisj : ∀ p ∈ props, ∀ c ∈ row, p.1 ≠ c.1) :
    resultDictionaryGo props row =
      if supportedRow row then .ok (props ++ rowProps row)
      else .error (.jsError unsupportedColumnMsg) := by
  induction row generalizing props with
  | nil => simp [resultDictionaryGo, supportedRow, rowProps]
  | cons c rest ih =>
    obtain ⟨name, v⟩ := c
    have hset : ∀ w : JSValue, objSet props name w = props ++ [(name, w)] := by
      intro w
      exact objSet_append props name w (fun p hp => hdisj p hp (name, v) (List.mem_cons_self _ _))
    have hnd2 : (rest.map Prod.fst).Nodup := (List.nodup_cons.mp hnd).2
    have hname : name ∉ rest.map Prod.fst := (List.nodup_cons.mp hnd).1
    have hdisj2 : ∀ w : JSValue, ∀ p ∈ props ++ [(name, w)], ∀ c2 ∈ rest, p.1 ≠ c2.1 := by
      intro w p hp c2 hc2
      rcases List.mem_append.mp hp with hp1 | hp2
      · exact hdisj p hp1 c2 (List.mem_cons_of_mem _ hc2)
      · have : p = (name, w) := by simpa using hp2
        subst this
        intro hcontra
        exact hname (by simpa [← hcontra] using List.mem_map_of_mem Prod.fst hc2)
    cases v
    case integer i =>
      rw [resultDictionaryGo, hset, ih _ hnd2 (hdisj2 _)]
      cases hsr : supportedRow rest <;>
        simp [hsr, supportedRow_cons, rowProps_cons, supportedCol, columnJS]
    case float p =>
      rw [resultDictionaryGo, hset, ih _ hnd2 (hdisj2 _)]
      cases hsr : supportedRow rest <;>
        simp [hsr, supportedRow_cons, rowProps_cons, supportedCol, columnJS]
    case text s =>
      cases s
      case none =>
        rw [resultDictionaryGo, hset, ih _ hnd2 (hdisj2 _)]
        cases hsr : supportedRow rest <;>
          simp [hsr, supportedRow_cons, rowProps_cons, supportedCol, columnJS]
      case some str =>
        rw [resultDictionaryGo, hset, ih _ hnd2 (hdisj2 _)]
        cases hsr : supportedRow rest <;>
          simp [hsr, supportedRow_cons, rowProps_cons, supportedCol, columnJS]
    case null =>
      rw [resultDictionaryGo, hset, ih _ hnd2 (hdisj2 _)]
      cases hsr : supportedRow rest <;>
        simp [hsr, supportedRow_cons, rowProps_cons, supportedCol, columnJS]
    case blob =>
      rw [resultDictionaryGo]
      simp [supportedRow_cons, supportedCol]

theorem resultDictionary_eq (row : Row) (hnd : (row.map Prod.fst).Nodup) :
    resultDictionary row =
      if supportedRow row then .ok (rowProps row)
      else .error (.jsError unsupportedColumnMsg) := by
  have h := resultDictionaryGo_eq row [] hnd (by intro p hp; simp at hp)
  simpa [resultDictionary] using h

theorem objGet_rowProps (row : Row) (hnd : (row.map Prod.fst).Nodup) :
    ∀ i (hi : i < row.length),
      objGet (rowProps row) (row.get ⟨i, hi⟩).1 = some (columnJS (row.get ⟨i, hi⟩).2) := by
  induction row with
  | nil => intro i hi; simp at hi
  | cons c rest ih =>
    intro i hi
    obtain ⟨name, v⟩ := c
    have hnd1 : name ∉ rest.map Prod.fst := (List.nodup_cons.mp hnd).1
    have hnd2 : (rest.map Prod.fst).Nodup := (List.nodup_cons.mp hnd).2
    cases i with
    | zero => simp [objGet, rowProps]
    | succ j =>
      have hj : j < rest.length := by simpa using hi
      have hget : ((name, v) :: rest : Row).get ⟨j + 1, hi⟩ = rest.get ⟨j, hj⟩ := rfl
      rw [hget, rowProps_cons]
      have hne : name ≠ (rest.get ⟨j, hj⟩).1 := by
        intro h
        apply hnd1
        rw [h]
        exact List.mem_map_of_mem Prod.fst (rest.get_mem _ _)
      have hb : (((name, columnJS v) : String × JSValue).1 == (rest.get ⟨j, hj⟩).1) = false := by
        simpa using hne
      unfold objGet
      rw [List.find?_cons, hb]
      exact ih hnd2 j hj

/-- Claim C7: for a row shaped by both shapers, the entry of the
Positional Array at index `i` equals the dictionary value at the `i`-th
column name — FALSE as stated when two columns share a name.  On
`dupRow = [a: 1, a: 2]`, the object property `a` is overwritten to `2`
by `setProperty`, while the positional array keeps `1` at index 0. -/
theorem claim7_counterexample :
    resultDictionary dupRow = .ok [("a", JSValue.number 2)] ∧
    resultArray dupRow = .ok [JSValue.number 1, JSValue.number 2] ∧
    objGet [("a", JSValue.number 2)] "a" ≠ [JSValue.number 1, JSValue.number 2][0]? := by
  refine ⟨rfl, rfl, ?_⟩
  simp [objGet]

/-- Claim C7 (amended): provided the row's column names are pairwise
distinct, the two shapers succeed on exactly the same rows (both apply the
same column-type mapping, failing on unsupported types), and on success
the `i`-th entry of the Positional Array equals the Dictionary value
stored under the `i`-th column's name. -/
theorem claim7_shapers_agree (row : Row) (hnd : (row.map Prod.fst).Nodup) :
    ((∃ d, resultDictionary row = .ok d) ↔ (∃ a, resultArray row = .ok a)) ∧
    (∀ d a, resultDictionary row = .ok d → resultArray row = .ok a →
      a.length = row.length ∧
      ∀ i (hi : i < row.length), objGet d (row.get ⟨i, hi⟩).1 = a[i]?) := by
  rw [resultDictionary_eq row hnd, resultArray_eq row]
  cases hsr : supportedRow row with
  | false =>
    constructor
    · constructor <;> rintro ⟨x, hx⟩ <;> simp at hx
    · intro d a hd ha
      simp at hd
  | true =>
    constructor
    · constructor <;> intro _ <;> exact ⟨_, rfl⟩
    · intro d a hd ha
      have hd2 : d = rowProps row := by simpa using hd.symm
      have ha2 : a = rowValues row := by simpa using ha.symm
      subst hd2
      subst ha2
      refine ⟨by simp [rowValues], ?_⟩
      intro i hi
      rw [objGet_rowProps row hnd i hi]
      have hlen : i < (rowValues row).length := by simpa [rowValues] using hi
      rw [List.getElem?_eq_getElem hlen]
      simp [rowValues]

/-- Witness for claim C7's amended theorem at the concrete row of record
`a` (`rowA`), whose column names `id`, `v` are distinct: entry 0 of the
positional shape equals the dictionary value under the first column
name. -/
theorem claim7_shapers_agree_witness :
    objGet [("id", JSValue.string "a"), ("v", JSValue.string "x")] "id" =
      [JSValue.string "a", JSValue.string "x"][0]? :=
  ((claim7_shapers_agree rowA (by simp [rowA])).2
    [("id", JSValue.string "a"), ("v", JSValue.string "x")]
    [JSValue.string "a", JSValue.string "x"] rfl rfl).2 0 (by simp [rowA])

/-! ## Claim C8: bind-count mismatch -/

theorem lookupStmt_storeStmt_same (sql : String) (stmt : Stmt) (cache : List (String × Stmt)) :
    lookupStmt sql (storeStmt sql stmt cache) = some stmt := by
  induction cache with
  | nil => simp [storeStmt, lookupStmt]
  | cons p rest ih =>
    obtain ⟨k, s⟩ := p
    by_cases h : k = sql
    · subst h
      simp [storeStmt, lookupStmt]
    · have hb : (k == sql) = false := by simpa using h
      simp [storeStmt, lookupStmt, hb, ih]

theorem sqliteReset_idem (stmt : Stmt) : sqliteReset (sqliteReset stmt) = sqliteReset stmt := rfl

theorem bindArgsLoop_ok (args : List JSValue) (stmt : Stmt)
    (h : ∀ v ∈ args, bindableJS v = true) : (bindArgsLoop stmt args).1 = .ok () := by
  induction args generalizing stmt with
  | nil => rfl
  | cons v rest ih =>
    have hv : bindableJS v = true := h v (List.mem_cons_self _ _)
    have hrest : ∀ w ∈ rest, bindableJS w = true := fun w hw => h w (List.mem_cons_of_mem _ hw)
    cases v <;> simp [bindableJS] at hv ⊢ <;> exact ih _ hrest

theorem prepareQuery_hit (compile : String → Except String Nat) (sql : String)
    (stmt : Stmt) (cache : List (String × Stmt)) (h : lookupStmt sql cache = some stmt) :
    prepareQuery compile sql cache =
      .ok (sqliteReset stmt, storeStmt sql (sqliteReset stmt) cache) := by
  unfold prepareQuery
  rw [h]

theorem prepareAndBind_hit (compile : String → Except String Nat) (sql : String)
    (args : List JSValue) (stmt : Stmt) (cache : List (String × Stmt))
    (h : lookupStmt sql cache = some stmt) :
    prepareAndBind compile sql args cache =
      ((bindArgs (sqliteReset stmt) args).1,
       storeStmt sql (bindArgs (sqliteReset stmt) args).2
         (storeStmt sql (sqliteReset stmt) cache)) := by
  unfold prepareAndBind
  rw [prepareQuery_hit compile sql stmt cache h]

/-- Claim C8: binding an argument list whose length differs from the
statement's placeholder count resets the statement and fails with the
argument-mismatch error, leaving the cached statement in place so that a
subsequent call with the same SQL and a correct argument list succeeds. -/
theorem claim8_bind_mismatch (compile : String → Except String Nat) (stmt : Stmt)
    (cache : List (String × Stmt)) (args1 args2 : List JSValue)
    (hmem : lookupStmt stmt.sql cache = some stmt)
    (h1 : args1.length ≠ stmt.paramCount)
    (h2 : args2.length = stmt.paramCount)
    (h3 : ∀ v ∈ args2, bindableJS v = true) :
    prepareAndBind compile stmt.sql args1 cache =
      (.error (.jsError "Number of args passed to query does not match number of arg placeholders"),
       storeStmt stmt.sql (sqliteReset stmt) (storeStmt stmt.sql (sqliteReset stmt) cache)) ∧
    lookupStmt stmt.sql
        (storeStmt stmt.sql (sqliteReset stmt) (storeStmt stmt.sql (sqliteReset stmt) cache)) =
      some (sqliteReset stmt) ∧
    (prepareAndBind compile stmt.sql args2
        (storeStmt stmt.sql (sqliteReset stmt) (storeStmt stmt.sql (sqliteReset stmt) cache))).1 =
      .ok () := by
  have hb1 : bindArgs (sqliteReset stmt) args1 =
      (.error (.jsError "Number of args passed to query does not match number of arg placeholders"),
       sqliteReset stmt) := by
    unfold bindArgs
    rw [if_pos (show args1.length ≠ (sqliteReset stmt).paramCount from h1), sqliteReset_idem]
  have hb2 : (bindArgs (sqliteReset (sqliteReset stmt)) args2).1 = .ok () := by
    unfold bindArgs
    rw [if_neg (by simp [sqliteReset, h2])]
    exact bindArgsLoop_ok args2 _ h3
  refine ⟨?_, lookupStmt_storeStmt_same _ _ _, ?_⟩
  · rw [prepareAndBind_hit compile stmt.sql args1 stmt cache hmem, hb1]
  · rw [prepareAndBind_hit compile stmt.sql args2 (sqliteReset stmt) _
      (lookupStmt_storeStmt_same _ _ _)]
    exact hb2

/-- Witness for claim C8 at the concrete two-placeholder statement
`stmtW`: binding no arguments fails with the mismatch error and leaves
the statement cached; binding two valid arguments afterwards succeeds. -/
theorem claim8_bind_mismatch_witness :
    prepareAndBind compileW "sqlW" [] cacheW =
      (.error (.jsError "Number of args passed to query does not match number of arg placeholders"),
       cacheW) ∧
    lookupStmt "sqlW" cacheW = some stmtW ∧
    (prepareAndBind compileW "sqlW" [JSValue.string "a", JSValue.null] cacheW).1 = .ok () :=
  claim8_bind_mismatch compileW stmtW cacheW [] [JSValue.string "a", JSValue.null]
    rfl (by decide) rfl (by decide)

/-! ## Claim C5: `count` -/

/-- Claim C5 (amended): `count` fails with a `DbError` when the query
yields no row; otherwise it reads only the first row, requires that row
to have exactly one column (a C assert on `sqlite3_data_count`), and
returns its value as an integer host number.  Additional rows are
ignored — the code never enforces "exactly one row". -/
theorem claim5_count_spec {δ : Type} (E : Engine δ) (sql : String) (args : List JSValue)
    (st : DbState δ) :
    (E.runQuery sql args st.db = .ok [] →
      count E sql args st =
        (.error (.dbError "Failed to get a row for query"), pushCall (.query sql args) st)) ∧
    (∀ (name : String) (v : SqlValue) (rest : List Row),
      E.runQuery sql args st.db = .ok ([(name, v)] :: rest) →
      count E sql args st =
        (.ok (JSValue.number (sqlColumnInt v)), pushCall (.query sql args) st)) ∧
    (∀ (n1 : String) (v1 : SqlValue) (c2 : String × SqlValue) (cs : Row) (rest : List Row),
      E.runQuery sql args st.db = .ok (((n1, v1) :: c2 :: cs) :: rest) →
      count E sql args st =
        (.error (.abort "sqlite3_data_count(statement.stmt) == 1"),
         pushCall (.query sql args) st)) := by
  refine ⟨?_, ?_, ?_⟩
  · intro h
    simp [count, dbmBind, runQueryAll, h, throwM]
  · intro name v rest h
    simp [count, dbmBind, runQueryAll, h, cAssert, dbmPure]
  · intro n1 v1 c2 cs rest h
    simp [count, dbmBind, runQueryAll, h, cAssert, dbmPure]

/-- Claim C5: `count` "requires exactly one row" — FALSE: on a two-row
result it succeeds, returning the first row's value; it never checks
whether more rows follow. -/
theorem claim5_counterexample :
    count twoRowsE "q" [] st0 = (.ok (JSValue.number 5), pushCall (.query "q" []) st0) := rfl

/-- Witness for claim C5's amended theorem: an empty result raises the
`DbError`, a single-column first row returns its integer value, and a
two-column first row trips the column-count assert. -/
theorem claim5_count_spec_witness :
    count countE "empty" [] st0 =
      (.error (.dbError "Failed to get a row for query"), pushCall (.query "empty" []) st0) ∧
    count countE "one" [] st0 =
      (.ok (JSValue.number (sqlColumnInt (SqlValue.integer 5))), pushCall (.query "one" []) st0) ∧
    count twoColE "q" [] st0 =
      (.error (.abort "sqlite3_data_count(statement.stmt) == 1"), pushCall (.query "q" []) st0) :=
  ⟨(claim5_count_spec countE "empty" [] st0).1 rfl,
   (claim5_count_spec countE "one" [] st0).2.1 "c" (SqlValue.integer 5) [] rfl,
   (claim5_count_spec twoColE "q" [] st0).2.2 "a" (SqlValue.integer 1)
     ("b", SqlValue.integer 2) [] [] rfl⟩

/-! ## Claim C3: `migrate` precondition -/

/-- Claim C3: when the current user version differs from `fromVersion`,
`migrate` fails (the failed version assert) without executing
`migrationSql` and without changing the user version: the only engine
calls made are the transaction begin and the version query — in
particular no multi-statement script (the only way `migrationSql` runs)
and no statement other than the begin (the only way the version pragma
could run). -/
theorem claim3_migrate_precondition {δ : Type} (E : Engine δ) (migrationSql : String)
    (fromVersion toVersion : Int) (st : DbState δ) (d1 : δ) (name : String) (v : SqlValue)
    (hbegin : E.exec "begin exclusive transaction" [] st.db = .ok d1)
    (hver : E.runQuery "pragma user_version" [] d1 = .ok [[(name, v)]])
    (hne : sqlColumnInt v ≠ fromVersion) :
    migrate E migrationSql fromVersion toVersion st =
      (.error (.abort "Incompatible migration set"),
       { db := d1, cachedRecords := st.cachedRecords,
         trace := st.trace ++ [Call.exec "begin exclusive transaction" [],
                               Call.query "pragma user_version" []] }) ∧
    (∀ s2 : String,
      Call.execMultiple s2 ∉ [Call.exec "begin exclusive transaction" [],
                              Call.query "pragma user_version" []]) ∧
    (∀ (sq : String) (args2 : List JSValue),
      Call.exec sq args2 ∈ [Call.exec "begin exclusive transaction" [],
                            Call.query "pragma user_version" []] →
      sq = "begin exclusive transaction") := by
  refine ⟨?_, ?_, ?_⟩
  · have hbe : (sqlColumnInt v == fromVersion) = false := by simpa using hne
    simp [migrate, migrateTry, rollbackAndRethrow, dbmBind, beginTransaction, executeUpdate,
      hbegin, catchStd, getUserVersion, runQueryAll, pushCall, hver, cAssert, hbe,
      dbmPure, throwM]
  · intro s2
    simp
  · intro sq args2 h
    simp only [List.mem_cons, List.not_mem_nil, or_false] at h
    rcases h with h | h
    · injection h with h1 h2
    · exact absurd h (by simp)

/-- Witness for claim C3 on the engine `verE` reporting user version 3,
migrating from 4: the assert aborts after only the begin and the version
query. -/
theorem claim3_migrate_precondition_witness :
    migrate verE "alter table t add column w" 4 5 st0 =
      (.error (.abort "Incompatible migration set"),
       { db := (), cachedRecords := [],
         trace := [Call.exec "begin exclusive transaction" [],
                   Call.query "pragma user_version" []] }) :=
  (claim3_migrate_precondition verE "alter table t add column w" 4 5 st0 () "user_version"
    (SqlValue.integer 3) rfl rfl (by decide)).1

/-! ## Invariant lemmas for `batch` -/

theorem dbmBind_ok {δ α β : Type} (m : DbM δ α) (f : α → DbM δ β) (s s1 : DbState δ)
    (a : α) (h : m s = (.ok a, s1)) : dbmBind m f s = f a s1 := by
  unfold dbmBind
  rw [h]

theorem dbmBind_error {δ α β : Type} (m : DbM δ α) (f : α → DbM δ β) (s s1 : DbState δ)
    (e : Err) (h : m s = (.error e, s1)) : dbmBind m f s = (.error e, s1) := by
  unfold dbmBind
  rw [h]

theorem executeUpdate_state {δ : Type} (E : Engine δ) (sql : String) (args : List JSValue)
    (s : DbState δ) :
    ((executeUpdate E sql args) s).2.cachedRecords = s.cachedRecords ∧
    ((executeUpdate E sql args) s).2.trace = s.trace ++ [Call.exec sql args] ∧
    (∀ m, ((executeUpdate E sql args) s).1 ≠ .error (.abort m)) := by
  unfold executeUpdate pushCall
  cases E.exec sql args s.db <;> simp

theorem rollbackTransaction_state {δ : Type} (E : Engine δ) (s : DbState δ) :
    ((rollbackTransaction E) s).1 = .ok () ∧
    ((rollbackTransaction E) s).2.cachedRecords = s.cachedRecords ∧
    ((rollbackTransaction E) s).2.trace = s.trace ++ [Call.exec "rollback transaction" []] := by
  have h := executeUpdate_state E "rollback transaction" [] s
  unfold rollbackTransaction
  rcases hu : executeUpdate E "rollback transaction" [] s with ⟨r, s1⟩
  rw [hu] at h
  cases r <;> simp_all

theorem batchOpArgs_cons_err {δ : Type} (E : Engine δ) (c : Int) (t sql : String)
    (args : List JSValue) (rest : List (List JSValue)) (added removed : List String)
    (s s1 : DbState δ) (e : Err) (hx : executeUpdate E sql args s = (.error e, s1)) :
    (batchOpArgs E c t sql (args :: rest) added removed) s = (.error e, s1) := by
  show (dbmBind (executeUpdate E sql args) _) s = _
  exact dbmBind_error (executeUpdate E sql args) _ s s1 e hx

theorem batchOpArgs_cons_ok {δ : Type} (E : Engine δ) (c : Int) (t sql : String)
    (args : List JSValue) (rest : List (List JSValue)) (added removed : List String)
    (s s1 : DbState δ) (a : Unit) (hx : executeUpdate E sql args s = (.ok a, s1)) :
    (batchOpArgs E c t sql (args :: rest) added removed) s =
      (if c ≠ 0 then
        match args.head? with
        | some (JSValue.string id) =>
          if c = 1 then batchOpArgs E c t sql rest (added ++ [cacheKey t id]) removed
          else if c = -1 then batchOpArgs E c t sql rest added (removed ++ [cacheKey t id])
          else batchOpArgs E c t sql rest added removed
        | _ => throwM (.jsError "Expected the first query argument to be a string record id")
      else batchOpArgs E c t sql rest added removed) s1 := by
  show (dbmBind (executeUpdate E sql args) _) s = _
  exact dbmBind_ok (executeUpdate E sql args) _ s s1 a hx

theorem batchOpArgs_inv {δ : Type} (E : Engine δ) (c : Int) (t sql : String) :
    ∀ (batches : List (List JSValue)) (added removed : List String) (s : DbState δ),
      ((batchOpArgs E c t sql batches added removed) s).2.cachedRecords = s.cachedRecords ∧
      (∃ Δ, ((batchOpArgs E c t sql batches added removed) s).2.trace = s.trace ++ Δ) ∧
      (∀ m, ((batchOpArgs E c t sql batches added removed) s).1 ≠ .error (.abort m)) := by
  intro batches
  induction batches with
  | nil =>
    intro added removed s
    refine ⟨rfl, ⟨[], by simp [batchOpArgs, dbmPure]⟩, ?_⟩
    intro m
    simp [batchOpArgs, dbmPure]
  | cons args rest ih =>
    intro added removed s
    have hu := executeUpdate_state E sql args s
    rcases hx : executeUpdate E sql args s with ⟨r, s1⟩
    rw [hx] at hu
    obtain ⟨hc1, ht1, hna1⟩ := hu
    cases r with
    | error e =>
      rw [batchOpArgs_cons_err E c t sql args rest added removed s s1 e hx]
      refine ⟨hc1, ⟨[Call.exec sql args], ht1⟩, ?_⟩
      intro m h
      have he : e = .abort m := by simpa using h
      exact hna1 m (by simp [he])
    | ok a =>
      have recur : ∀ (added2 removed2 : List String),
          ((batchOpArgs E c t sql rest added2 removed2) s1).2.cachedRecords =
              s.cachedRecords ∧
          (∃ Δ, ((batchOpArgs E c t sql rest added2 removed2) s1).2.trace =
              s.trace ++ Δ) ∧
          (∀ m, ((batchOpArgs E c t sql rest added2 removed2) s1).1 ≠
              .error (.abort m)) := by
        intro added2 removed2
        obtain ⟨hc2, ⟨Δ2, ht2⟩, hna2⟩ := ih added2 removed2 s1
        exact ⟨hc2.trans hc1, ⟨Call.exec sql args :: Δ2,
          by rw [ht2, ht1, List.append_assoc]; rfl⟩, hna2⟩
      rw [batchOpArgs_cons_ok E c t sql args rest added removed s s1 a hx]
      by_cases h0 : c ≠ 0
      · rw [if_pos h0]
        rcases hh : args.head? with _ | v
        · exact ⟨hc1, ⟨[Call.exec sql args], ht1⟩, fun m h => by simp [throwM] at h⟩
        · rcases v with _ | _ | b | n | p | id | el | pr
          · exact ⟨hc1, ⟨[Call.exec sql args], ht1⟩, fun m h => by simp [throwM] at h⟩
          · exact ⟨hc1, ⟨[Call.exec sql args], ht1⟩, fun m h => by simp [throwM] at h⟩
          · exact ⟨hc1, ⟨[Call.exec sql args], ht1⟩, fun m h => by simp [throwM] at h⟩
          · exact ⟨hc1, ⟨[Call.exec sql args], ht1⟩, fun m h => by simp [throwM] at h⟩
          · exact ⟨hc1, ⟨[Call.exec sql args], ht1⟩, fun m h => by simp [throwM] at h⟩
          · split
            · exact recur _ _
            · split
              · exact recur _ _
              · exact recur _ _
          · exact ⟨hc1, ⟨[Call.exec sql args], ht1⟩, fun m h => by simp [throwM] at h⟩
          · exact ⟨hc1, ⟨[Call.exec sql args], ht1⟩, fun m h => by simp [throwM] at h⟩
      · rw [if_neg h0]
        exact recur added removed

theorem batchBody_inv {δ : Type} (E : Engine δ) :
    ∀ (ops : List BatchOp) (added removed : List String) (s : DbState δ),
      ((batchBody E ops added removed) s).2.cachedRecords = s.cachedRecords ∧
      (∃ Δ, ((batchBody E ops added removed) s).2.trace = s.trace ++ Δ) ∧
      (∀ m, ((batchBody E ops added removed) s).1 ≠ .error (.abort m)) := by
  intro ops
  induction ops with
  | nil =>
    intro added removed s
    refine ⟨rfl, ⟨[], by simp [batchBody, dbmPure]⟩, ?_⟩
    intro m
    simp [batchBody, dbmPure]
  | cons op rest ih =>
    intro added removed s
    have hop := batchOpArgs_inv E op.cacheBehavior op.table op.sql op.argsBatches
      added removed s
    rcases hx : (batchOpArgs E op.cacheBehavior op.table op.sql op.argsBatches
      added removed) s with ⟨r, s1⟩
    rw [hx] at hop
    obtain ⟨hc1, ⟨Δ1, ht1⟩, hna1⟩ := hop
    cases r with
    | error e =>
      have hstep : (batchBody E (op :: rest) added removed) s = (.error e, s1) := by
        show (dbmBind (batchOpArgs E op.cacheBehavior op.table op.sql op.argsBatches
          added removed) _) s = _
        exact dbmBind_error _ _ s s1 e hx
      rw [hstep]
      refine ⟨hc1, ⟨Δ1, ht1⟩, fun m h => ?_⟩
      have he : e = .abort m := by simpa using h
      exact hna1 m (by simp [he])
    | ok p =>
      have hstep : (batchBody E (op :: rest) added removed) s =
          (batchBody E rest p.1 p.2) s1 := by
        show (dbmBind (batchOpArgs E op.cacheBehavior op.table op.sql op.argsBatches
          added removed) _) s = _
        exact dbmBind_ok _ _ s s1 p hx
      rw [hstep]
      obtain ⟨hc2, ⟨Δ2, ht2⟩, hna2⟩ := ih p.1 p.2 s1
      exact ⟨hc2.trans hc1, ⟨Δ1 ++ Δ2, by rw [ht2, ht1, List.append_assoc]⟩, hna2⟩

theorem batchOpArgs_ok_keys {δ : Type} (E : Engine δ) (c : Int) (t sql : String) :
    ∀ (batches : List (List JSValue)) (added removed : List String) (s s1 : DbState δ)
      (p : List String × List String),
      (batchOpArgs E c t sql batches added removed) s = (.ok p, s1) →
      p.1 = added ++ batches.filterMap (addKeyOf c t) ∧
      p.2 = removed ++ batches.filterMap (removeKeyOf c t) := by
  intro batches
  induction batches with
  | nil =>
    intro added removed s s1 p h
    simp only [batchOpArgs, dbmPure] at h
    obtain ⟨h1, h2⟩ := Prod.mk.injEq .. ▸ h
    have hp : p = (added, removed) := by
      have := h1
      simp at this
      exact this.symm
    subst hp
    simp
  | cons args rest ih =>
    intro added removed s s1 p h
    rcases hx : executeUpdate E sql args s with ⟨r, s2⟩
    cases r with
    | error e =>
      rw [batchOpArgs_cons_err E c t sql args rest added removed s s2 e hx] at h
      have h2 : (Except.error e : Except Err (List String × List String)) = .ok p :=
        congrArg Prod.fst h
      simp at h2
    | ok a =>
      rw [batchOpArgs_cons_ok E c t sql args rest added removed s s2 a hx] at h
      by_cases h0 : c ≠ 0
      · rw [if_pos h0] at h
        rcases hh : args.head? with _ | v
        · rw [hh] at h
          have h2 : (Except.error
              (Err.jsError "Expected the first query argument to be a string record id") :
              Except Err (List String × List String)) = .ok p := congrArg Prod.fst h
          simp at h2
        · have killNonString : ∀ (q : Except Err (List String × List String) × DbState δ),
              q = (.ok p, s1) →
              q.1 = Except.error
                (Err.jsError "Expected the first query argument to be a string record id") →
              False := by
            intro q hq hq1
            rw [hq] at hq1
            simp at hq1
          rcases v with _ | _ | b | n | p2 | id | el | pr
          · exact absurd (congrArg Prod.fst (hh ▸ h)).symm (by simp [throwM])
          · exact absurd (congrArg Prod.fst (hh ▸ h)).symm (by simp [throwM])
          · exact absurd (congrArg Prod.fst (hh ▸ h)).symm (by simp [throwM])
          · exact absurd (congrArg Prod.fst (hh ▸ h)).symm (by simp [throwM])
          · exact absurd (congrArg Prod.fst (hh ▸ h)).symm (by simp [throwM])
          · simp only [hh] at h
            by_cases h1 : c = 1
            · rw [if_pos h1] at h
              obtain ⟨k1, k2⟩ := ih (added ++ [cacheKey t id]) removed s2 s1 p h
              refine ⟨?_, ?_⟩
              · rw [k1]
                simp [addKeyOf, h1, hh]
              · rw [k2]
                simp [removeKeyOf, h1, hh]
            · rw [if_neg h1] at h
              by_cases hm1 : c = -1
              · rw [if_pos hm1] at h
                obtain ⟨k1, k2⟩ := ih added (removed ++ [cacheKey t id]) s2 s1 p h
                refine ⟨?_, ?_⟩
                · rw [k1]
                  simp [addKeyOf, h1, hh]
                · rw [k2]
                  simp [removeKeyOf, hm1, h1, hh]
              · rw [if_neg hm1] at h
                obtain ⟨k1, k2⟩ := ih added removed s2 s1 p h
                refine ⟨?_, ?_⟩
                · rw [k1]
                  simp [addKeyOf, h1, hh]
                · rw [k2]
                  simp [removeKeyOf, hm1, h1, hh]
          · exact absurd (congrArg Prod.fst (hh ▸ h)).symm (by simp [throwM])
          · exact absurd (congrArg Prod.fst (hh ▸ h)).symm (by simp [throwM])
      · rw [if_neg h0] at h
        obtain ⟨k1, k2⟩ := ih added removed s2 s1 p h
        have hc0 : c = 0 := by omega
        refine ⟨?_, ?_⟩
        · rw [k1]
          simp [addKeyOf, hc0]
        · rw [k2]
          simp [removeKeyOf, hc0]

theorem catchStd_ok {δ α : Type} (body : DbM δ α) (handler : Err → DbM δ α)
    (s s1 : DbState δ) (a : α) (h : body s = (.ok a, s1)) :
    catchStd body handler s = (.ok a, s1) := by
  unfold catchStd
  rw [h]

theorem catchStd_error {δ α : Type} (body : DbM δ α) (handler : Err → DbM δ α)
    (s s1 : DbState δ) (e : Err) (h : body s = (.error e, s1))
    (hna : ∀ m, e ≠ .abort m) : catchStd body handler s = handler e s1 := by
  unfold catchStd
  rw [h]
  cases e with
  | abort m => exact absurd rfl (hna m)
  | dbError m => rfl
  | jsError m => rfl

theorem catchStd_abort {δ α : Type} (body : DbM δ α) (handler : Err → DbM δ α)
    (s s1 : DbState δ) (m : String) (h : body s = (.error (.abort m), s1)) :
    catchStd body handler s = (.error (.abort m), s1) := by
  unfold catchStd
  rw [h]

theorem rollbackAndRethrow_state {δ α : Type} (E : Engine δ) (e : Err) (s : DbState δ) :
    ((rollbackAndRethrow E e : DbM δ α) s).1 = .error e ∧
    ((rollbackAndRethrow E e : DbM δ α) s).2.cachedRecords = s.cachedRecords ∧
    ((rollbackAndRethrow E e : DbM δ α) s).2.trace =
      s.trace ++ [Call.exec "rollback transaction" []] := by
  obtain ⟨h1, h2, h3⟩ := rollbackTransaction_state E s
  rcases hx : rollbackTransaction E s with ⟨r, s1⟩
  rw [hx] at h1 h2 h3
  have hr : r = .ok () := h1
  subst hr
  have hstep : (rollbackAndRethrow E e : DbM δ α) s = (.error e, s1) := by
    show (dbmBind (rollbackTransaction E) _) s = _
    rw [dbmBind_ok (rollbackTransaction E) _ s s1 () hx]
    rfl
  rw [hstep]
  exact ⟨rfl, h2, h3⟩

theorem batchTry_inv {δ : Type} (E : Engine δ) (ops : List BatchOp) (s : DbState δ) :
    ((batchTry E ops) s).2.cachedRecords = s.cachedRecords ∧
    (∃ Δ, ((batchTry E ops) s).2.trace = s.trace ++ Δ) ∧
    (∀ m, ((batchTry E ops) s).1 ≠ .error (.abort m)) := by
  obtain ⟨hc1, ⟨Δ1, ht1⟩, hna1⟩ := batchBody_inv E ops [] [] s
  rcases hx : (batchBody E ops [] []) s with ⟨r, s1⟩
  rw [hx] at hc1 ht1 hna1
  cases r with
  | error e =>
    have hstep : batchTry E ops s = (.error e, s1) := by
      show (dbmBind (batchBody E ops [] []) _) s = _
      exact dbmBind_error _ _ s s1 e hx
    rw [hstep]
    refine ⟨hc1, ⟨Δ1, ht1⟩, fun m h => ?_⟩
    have he : e = .abort m := by simpa using h
    exact hna1 m (by simp [he])
  | ok p =>
    have hstep : batchTry E ops s =
        (dbmBind (commitTransaction E) (fun _ => dbmPure p)) s1 := by
      show (dbmBind (batchBody E ops [] []) _) s = _
      exact dbmBind_ok _ _ s s1 p hx
    rw [hstep]
    have hcu := executeUpdate_state E "commit transaction" [] s1
    rcases hcx : commitTransaction E s1 with ⟨rc, s2⟩
    have hcx2 : executeUpdate E "commit transaction" [] s1 = (rc, s2) := hcx
    rw [hcx2] at hcu
    obtain ⟨hc2, ht2, hna2⟩ := hcu
    cases rc with
    | error ec =>
      have h2 : (dbmBind (commitTransaction E) (fun _ => dbmPure p)) s1 = (.error ec, s2) :=
        dbmBind_error _ _ s1 s2 ec hcx
      rw [h2]
      refine ⟨hc2.trans hc1, ⟨Δ1 ++ [Call.exec "commit transaction" []],
        by rw [ht2, ht1, List.append_assoc]⟩, fun m h => ?_⟩
      have he : ec = .abort m := by simpa using h
      exact hna2 m (by simp [he])
    | ok u =>
      have h2 : (dbmBind (commitTransaction E) (fun _ => dbmPure p)) s1 = dbmPure p s2 :=
        dbmBind_ok _ _ s1 s2 u hcx
      rw [h2]
      exact ⟨hc2.trans hc1, ⟨Δ1 ++ [Call.exec "commit transaction" []],
        by rw [show (dbmPure p s2 : Except Err (List String × List String) × DbState δ).2 =
          s2 from rfl, ht2, ht1, List.append_assoc]⟩, fun m h => by simp [dbmPure] at h⟩

theorem batchBody_ok_keys {δ : Type} (E : Engine δ) :
    ∀ (ops : List BatchOp) (added removed : List String) (s s1 : DbState δ)
      (p : List String × List String),
      (batchBody E ops added removed) s = (.ok p, s1) →
      p.1 = added ++ addedKeys ops ∧ p.2 = removed ++ removedKeys ops := by
  intro ops
  induction ops with
  | nil =>
    intro added removed s s1 p h
    simp only [batchBody, dbmPure] at h
    have h1 : (Except.ok (added, removed) : Except Err (List String × List String)) =
        .ok p := congrArg Prod.fst h
    have hp : p = (added, removed) := by simpa using h1.symm
    subst hp
    simp [addedKeys, removedKeys]
  | cons op rest ih =>
    intro added removed s s1 p h
    rcases hx : (batchOpArgs E op.cacheBehavior op.table op.sql op.argsBatches
      added removed) s with ⟨r, s2⟩
    cases r with
    | error e =>
      have hstep : (batchBody E (op :: rest) added removed) s = (.error e, s2) := by
        show (dbmBind (batchOpArgs E op.cacheBehavior op.table op.sql op.argsBatches
          added removed) _) s = _
        exact dbmBind_error _ _ s s2 e hx
      rw [hstep] at h
      have h1 : (Except.error e : Except Err (List String × List String)) = .ok p :=
        congrArg Prod.fst h
      simp at h1
    | ok q =>
      have hstep : (batchBody E (op :: rest) added removed) s =
          (batchBody E rest q.1 q.2) s2 := by
        show (dbmBind (batchOpArgs E op.cacheBehavior op.table op.sql op.argsBatches
          added removed) _) s = _
        exact dbmBind_ok _ _ s s2 q hx
      rw [hstep] at h
      obtain ⟨k1, k2⟩ := ih q.1 q.2 s2 s1 p h
      obtain ⟨m1, m2⟩ := batchOpArgs_ok_keys E op.cacheBehavior op.table op.sql
        op.argsBatches added removed s s2 q hx
      constructor
      · rw [k1, m1]
        simp [addedKeys]
      · rw [k2, m2]
        simp [removedKeys]

theorem batchTry_ok_keys {δ : Type} (E : Engine δ) (ops : List BatchOp)
    (s s1 : DbState δ) (p : List String × List String)
    (h : batchTry E ops s = (.ok p, s1)) :
    p.1 = addedKeys ops ∧ p.2 = removedKeys ops := by
  rcases hx : (batchBody E ops [] []) s with ⟨r, s2⟩
  cases r with
  | error e =>
    have hstep : batchTry E ops s = (.error e, s2) := by
      show (dbmBind (batchBody E ops [] []) _) s = _
      exact dbmBind_error _ _ s s2 e hx
    rw [hstep] at h
    have h1 : (Except.error e : Except Err (List String × List String)) = .ok p :=
      congrArg Prod.fst h
    simp at h1
  | ok q =>
    have hstep : batchTry E ops s =
        (dbmBind (commitTransaction E) (fun _ => dbmPure q)) s2 := by
      show (dbmBind (batchBody E ops [] []) _) s = _
      exact dbmBind_ok _ _ s s2 q hx
    rw [hstep] at h
    rcases hcx : commitTransaction E s2 with ⟨rc, s3⟩
    cases rc with
    | error ec =>
      rw [dbmBind_error _ _ s2 s3 ec hcx] at h
      have h1 : (Except.error ec : Except Err (List String × List String)) = .ok p :=
        congrArg Prod.fst h
      simp at h1
    | ok u =>
      rw [dbmBind_ok _ _ s2 s3 u hcx] at h
      have hq : (Except.ok q : Except Err (List String × List String)) = .ok p :=
        congrArg Prod.fst h
      have hqp : q = p := by simpa using hq
      subst hqp
      obtain ⟨k1, k2⟩ := batchBody_ok_keys E ops [] [] s s2 q hx
      simp at k1 k2
      exact ⟨k1, k2⟩

/-- On a successfully committed `batch`, the final Identity Cache is the
initial one plus all added keys minus all removed keys (insertions applied
first, then removals). -/
theorem batch_ok_cache {δ : Type} (E : Engine δ) (ops : List BatchOp)
    (st st2 : DbState δ) (hok : batch E ops st = (.ok (), st2)) :
    ∀ k, k ∈ st2.cachedRecords ↔
      ((k ∈ st.cachedRecords ∨ k ∈ addedKeys ops) ∧ k ∉ removedKeys ops) := by
  rcases hbx : beginTransaction E st with ⟨rb, s1⟩
  have hbx2 : executeUpdate E "begin exclusive transaction" [] st = (rb, s1) := hbx
  have hbs := executeUpdate_state E "begin exclusive transaction" [] st
  rw [hbx2] at hbs
  obtain ⟨hbc, hbt, _⟩ := hbs
  cases rb with
  | error eb =>
    have hb2 : batch E ops st = (.error eb, s1) := by
      show (dbmBind (beginTransaction E) _) st = _
      exact dbmBind_error _ _ st s1 eb hbx
    rw [hb2] at hok
    have h1 : (Except.error eb : Except Err Unit) = .ok () := congrArg Prod.fst hok
    simp at h1
  | ok a =>
    have hb2 : batch E ops st =
        (dbmBind (catchStd (batchTry E ops) (rollbackAndRethrow E))
          (fun p => applyCacheDeltas p.1 p.2)) s1 := by
      show (dbmBind (beginTransaction E) _) st = _
      exact dbmBind_ok _ _ st s1 a hbx
    obtain ⟨htc, _, htna⟩ := batchTry_inv E ops s1
    rcases htx : batchTry E ops s1 with ⟨rt, s2⟩
    rw [htx] at htc htna
    cases rt with
    | error et =>
      have hetna : ∀ m, et ≠ .abort m := by
        intro m hm
        exact htna m (by simp [hm])
      have hc : catchStd (batchTry E ops) (rollbackAndRethrow E) s1 =
          rollbackAndRethrow E et s2 := catchStd_error _ _ _ _ _ htx hetna
      obtain ⟨hr1, _, _⟩ :=
        rollbackAndRethrow_state (α := List String × List String) E et s2
      rcases hrx : (rollbackAndRethrow E et : DbM δ (List String × List String)) s2
        with ⟨rr, s3⟩
      rw [hrx] at hr1
      have hrr : rr = .error et := hr1
      subst hrr
      have hb3 : batch E ops st = (.error et, s3) := by
        rw [hb2]
        exact dbmBind_error _ _ s1 s3 et (hc.trans hrx)
      rw [hb3] at hok
      have h1 : (Except.error et : Except Err Unit) = .ok () := congrArg Prod.fst hok
      simp at h1
    | ok p =>
      have hc : catchStd (batchTry E ops) (rollbackAndRethrow E) s1 = (.ok p, s2) :=
        catchStd_ok _ _ _ _ _ htx
      have hb3 : batch E ops st = applyCacheDeltas p.1 p.2 s2 := by
        rw [hb2]
        exact dbmBind_ok _ _ s1 s2 p hc
      rw [hb3] at hok
      have hst : st2.cachedRecords =
          p.2.foldl (fun c k => removeFromCache k c)
            (p.1.foldl (fun c k => markAsCached k c) s2.cachedRecords) := by
        have h2 := congrArg (fun q : Except Err Unit × DbState δ => q.2.cachedRecords) hok
        exact h2.symm
      obtain ⟨k1, k2⟩ := batchTry_ok_keys E ops s1 s2 p htx
      have hcache2 : s2.cachedRecords = st.cachedRecords := by
        have htcb : s2.cachedRecords = s1.cachedRecords := htc
        have hbcb : s1.cachedRecords = st.cachedRecords := hbc
        rw [htcb, hbcb]
      intro k
      rw [hst, mem_foldl_remove, mem_foldl_mark, k1, k2, hcache2]

/-- Claim C2: after a committed batch, `isCached k` holds iff the last
operation mentioning `k` had cache-behavior +1 — FALSE as stated.  In
`ops2` the last operation mentioning `t$a` has behavior +1 (it re-inserts
the record after a −1 delete), yet after the successful commit the key is
not cached: the commit applies all insertions before all removals, so the
removal wins regardless of operation order. -/
theorem claim2_counterexample :
    lastBehaviorFor "t$a" ops2 = some 1 ∧
    (batch okE ops2 st0).1 = .ok () ∧
    isCached "t$a" (batch okE ops2 st0).2.cachedRecords = false :=
  ⟨rfl, rfl, rfl⟩

/-- Claim C2 (amended): after a successfully committed batch, `isCached k`
returns true iff (`k` was cached before the batch or some operation with
cache-behavior +1 mentioned `k`) and no operation with cache-behavior −1
mentioned `k`.  Insertions are applied before removals, so a −1 mention
wins even when a later +1 mention follows it. -/
theorem claim2_batch_commit_cache {δ : Type} (E : Engine δ) (ops : List BatchOp)
    (st st2 : DbState δ) (hok : batch E ops st = (.ok (), st2)) :
    ∀ k, isCached k st2.cachedRecords = true ↔
      ((k ∈ st.cachedRecords ∨ k ∈ addedKeys ops) ∧ k ∉ removedKeys ops) := by
  intro k
  rw [isCached_iff]
  exact batch_ok_cache E ops st st2 hok k

/-- Witness for claim C2's amended theorem on the delete-then-insert batch
`ops2`: the key `t$a` is both added and removed, so it ends up not
cached. -/
theorem claim2_batch_commit_cache_witness :
    isCached "t$a" (batch okE ops2 st0).2.cachedRecords = true ↔
      (("t$a" ∈ st0.cachedRecords ∨ "t$a" ∈ addedKeys ops2) ∧ "t$a" ∉ removedKeys ops2) :=
  claim2_batch_commit_cache okE ops2 st0 (batch okE ops2 st0).2 (by rfl) "t$a"

/-! ## Claim C4: `find` -/

/-- Claim C4: the round-trip part — "immediately after a batch that wrote
the record with cache-behavior +1, find returns the id string" — is FALSE
as stated.  In `ops2` the last operation mentioning record `a` of table
`t` writes it with cache-behavior +1 (after a −1 delete), and the batch
commits, yet the commit applies all insertions before all removals, so
`t$a` ends uncached and the immediately following `find` re-materializes
the record: it returns the Dictionary shape, not the host string `a`. -/
theorem claim4_counterexample :
    lastBehaviorFor "t$a" ops2 = some 1 ∧
    (batch findE ops2 st0).1 = .ok () ∧
    (find findE "t" "a" (batch findE ops2 st0).2).1 =
      .ok (.object [("id", JSValue.string "a"), ("v", JSValue.string "x")]) ∧
    (find findE "t" "a" (batch findE ops2 st0).2).1 ≠ .ok (.string "a") := by
  refine ⟨rfl, rfl, rfl, ?_⟩
  intro h
  rw [show (find findE "t" "a" (batch findE ops2 st0).2).1 =
    .ok (.object [("id", JSValue.string "a"), ("v", JSValue.string "x")]) from rfl] at h
  simp at h

/-- Claim C4 (amended): `find(table, id)` returns the id as a host string
without querying when the cache key is present; otherwise it queries — an
empty result gives host null, and a row is shaped to a Dictionary and the
key marked cached.  After a committed batch in which some +1 operation
wrote the record AND no −1 operation mentioned it, `find` returns the id
string, not a dictionary; when a −1 operation also mentioned the record,
the removal wins (insertions are applied before removals on commit) and
`find` re-materializes the dictionary instead. -/
theorem claim4_find_spec {δ : Type} (E : Engine δ) :
    (∀ (t id : String) (st : DbState δ),
      isCached (cacheKey t id) st.cachedRecords = true →
      find E t id st = (.ok (.string id), st)) ∧
    (∀ (t id : String) (st : DbState δ),
      isCached (cacheKey t id) st.cachedRecords = false →
      E.runQuery (findSql t) [JSValue.string id] st.db = .ok [] →
      find E t id st =
        (.ok JSValue.null, pushCall (.query (findSql t) [JSValue.string id]) st)) ∧
    (∀ (t id : String) (st : DbState δ) (row : Row) (rest : List Row)
      (props : List (String × JSValue)),
      isCached (cacheKey t id) st.cachedRecords = false →
      E.runQuery (findSql t) [JSValue.string id] st.db = .ok (row :: rest) →
      resultDictionary row = .ok props →
      find E t id st = (.ok (.object props),
        { db := st.db,
          cachedRecords := markAsCached (cacheKey t id) st.cachedRecords,
          trace := st.trace ++ [Call.query (findSql t) [JSValue.string id]] })) ∧
    (∀ (ops : List BatchOp) (st st2 : DbState δ) (t id : String),
      batch E ops st = (.ok (), st2) →
      cacheKey t id ∈ addedKeys ops →
      cacheKey t id ∉ removedKeys ops →
      find E t id st2 = (.ok (.string id), st2)) := by
  have part1 : ∀ (t id : String) (st : DbState δ),
      isCached (cacheKey t id) st.cachedRecords = true →
      find E t id st = (.ok (.string id), st) := by
    intro t id st h
    unfold find
    rw [if_pos h]
  refine ⟨part1, ?_, ?_, ?_⟩
  · intro t id st h hq
    unfold find
    rw [if_neg (by simp [h])]
    have hr : runQueryAll E (findSql t) [JSValue.string id] st =
        (.ok [], pushCall (.query (findSql t) [JSValue.string id]) st) := by
      unfold runQueryAll
      rw [hq]
    rw [dbmBind_ok _ _ st _ [] hr]
    rfl
  · intro t id st row rest props h hq hd
    unfold find
    rw [if_neg (by simp [h])]
    have hr : runQueryAll E (findSql t) [JSValue.string id] st =
        (.ok (row :: rest), pushCall (.query (findSql t) [JSValue.string id]) st) := by
      unfold runQueryAll
      rw [hq]
    rw [dbmBind_ok _ _ st _ (row :: rest) hr]
    simp only [hd]
    simp [pushCall]
  · intro ops st st2 t id hok hadd hrem
    have hcached : isCached (cacheKey t id) st2.cachedRecords = true := by
      rw [isCached_iff]
      exact (batch_ok_cache E ops st st2 hok (cacheKey t id)).2 ⟨Or.inr hadd, hrem⟩
    exact part1 t id st2 hcached

/-- Witness for claim C4 on the engine `findE`: a cached record returns
its id string with no state change; an unknown id returns null; an
uncached hit returns the dictionary and marks the key; and a find right
after a +1 batch insert returns the id string. -/
theorem claim4_find_spec_witness :
    find findE "t" "a" stA = (.ok (.string "a"), stA) ∧
    find findE "u" "b" st0 =
      (.ok JSValue.null, pushCall (.query (findSql "u") [JSValue.string "b"]) st0) ∧
    find findE "t" "a" st0 =
      (.ok (.object [("id", JSValue.string "a"), ("v", JSValue.string "x")]),
       { db := (),
         cachedRecords := markAsCached (cacheKey "t" "a") st0.cachedRecords,
         trace := st0.trace ++ [Call.query (findSql "t") [JSValue.string "a"]] }) ∧
    find findE "t" "a" (batch findE ops4 st0).2 =
      (.ok (.string "a"), (batch findE ops4 st0).2) :=
  ⟨(claim4_find_spec findE).1 "t" "a" stA (by decide),
   (claim4_find_spec findE).2.1 "u" "b" st0 (by decide) (by rfl),
   (claim4_find_spec findE).2.2.1 "t" "a" st0 rowA []
     [("id", JSValue.string "a"), ("v", JSValue.string "x")] (by decide) (by rfl) (by rfl),
   (claim4_find_spec findE).2.2.2 ops4 st0 (batch findE ops4 st0).2 "t" "a" (by rfl)
     (by decide) (by decide)⟩

/-! ## Claim C9: `unsafeResetDatabase` failure leaves the cache cleared -/

theorem executeMultiple_state {δ : Type} (E : Engine δ) (sql : String) (s : DbState δ) :
    ((executeMultiple E sql) s).2.cachedRecords = s.cachedRecords ∧
    ((executeMultiple E sql) s).2.trace = s.trace ++ [Call.execMultiple sql] ∧
    (∀ m, ((executeMultiple E sql) s).1 ≠ .error (.abort m)) := by
  unfold executeMultiple pushCall
  cases E.execMultiple sql s.db <;> simp

/-- Once `resetTry` has cleared the identity cache, no later step of the
protected region touches it, so the final cache is empty whether the
region succeeds or throws; and the region never aborts. -/
theorem resetTry_state {δ : Type} (E : Engine δ) (schema : String) (ver : Int)
    (s : DbState δ) :
    ((resetTry E schema ver) s).2.cachedRecords = [] ∧
    (∀ m, ((resetTry E schema ver) s).1 ≠ .error (.abort m)) := by
  have hcl : (clearCache : DbM δ Unit) s = (.ok (), { s with cachedRecords := [] }) := rfl
  have hstep : (resetTry E schema ver) s =
      (dbmBind (executeMultiple E schema) (fun _ =>
       dbmBind (setUserVersion E ver) (fun _ => commitTransaction E)))
        { s with cachedRecords := [] } := by
    show (dbmBind clearCache _) s = _
    exact dbmBind_ok _ _ s _ () hcl
  rw [hstep]
  have h5 : ({ s with cachedRecords := [] } : DbState δ).cachedRecords = [] := rfl
  obtain ⟨hm1, _, hm3⟩ := executeMultiple_state E schema { s with cachedRecords := [] }
  rcases hx1 : executeMultiple E schema { s with cachedRecords := [] } with ⟨r1, s6⟩
  rw [hx1] at hm1 hm3
  have hm1b : s6.cachedRecords = [] := by rw [show s6.cachedRecords = _ from hm1, h5]
  cases r1 with
  | error e1 =>
    rw [dbmBind_error _ _ _ s6 e1 hx1]
    refine ⟨hm1b, fun m h => ?_⟩
    have he : e1 = .abort m := by simpa using h
    exact hm3 m (by simp [he])
  | ok u1 =>
    rw [dbmBind_ok _ _ _ s6 u1 hx1]
    obtain ⟨hn1, _, hn3⟩ :=
      executeUpdate_state E ("pragma user_version = " ++ toString ver) [] s6
    rcases hx2 : setUserVersion E ver s6 with ⟨r2, s7⟩
    have hx2b : executeUpdate E ("pragma user_version = " ++ toString ver) [] s6 =
        (r2, s7) := hx2
    rw [hx2b] at hn1 hn3
    have hn1b : s7.cachedRecords = [] := by
      rw [show s7.cachedRecords = s6.cachedRecords from hn1, hm1b]
    cases r2 with
    | error e2 =>
      rw [dbmBind_error _ _ s6 s7 e2 hx2]
      refine ⟨hn1b, fun m h => ?_⟩
      have he : e2 = .abort m := by simpa using h
      exact hn3 m (by simp [he])
    | ok u2 =>
      rw [dbmBind_ok _ _ s6 s7 u2 hx2]
      obtain ⟨hq1, _, hq3⟩ := executeUpdate_state E "commit transaction" [] s7
      rcases hx3 : commitTransaction E s7 with ⟨r3, s8⟩
      have hx3b : executeUpdate E "commit transaction" [] s7 = (r3, s8) := hx3
      rw [hx3b] at hq1 hq3
      have hq1b : s8.cachedRecords = [] := by
        rw [show s8.cachedRecords = s7.cachedRecords from hq1, hn1b]
      exact ⟨hq1b, hq3⟩

/-- Claim C9: when `unsafeResetDatabase` fails inside its transaction
(after reset mode, vacuum, and begin succeeded), the transaction is
rolled back and the error rethrown, but the Identity Cache stays cleared:
it was emptied inside the transaction and is not restored on rollback. -/
theorem claim9_reset_failure {δ : Type} (E : Engine δ) (schema : String) (ver : Int)
    (st st2 : DbState δ) (e : Err) (d1 d2 d3 d4 : δ)
    (h1 : E.dbConfig resetDatabaseOption 1 st.db = .ok d1)
    (h2 : E.execMultiple "vacuum" d1 = .ok d2)
    (h3 : E.dbConfig resetDatabaseOption 0 d2 = .ok d3)
    (h4 : E.exec "begin exclusive transaction" [] d3 = .ok d4)
    (hfail : unsafeResetDatabase E schema ver st = (.error e, st2)) :
    st2.cachedRecords = [] ∧
    Call.exec "rollback transaction" [] ∈ st2.trace := by
  have e1 : dbConfigOr E resetDatabaseOption 1 "Failed to enable reset database mode" st =
      (.ok (), pushCall (.dbConfig resetDatabaseOption 1) { st with db := d1 }) := by
    unfold dbConfigOr
    rw [h1]
  have hstep1 : unsafeResetDatabase E schema ver st =
      (dbmBind (executeMultiple E "vacuum") (fun _ =>
       dbmBind (dbConfigOr E resetDatabaseOption 0 "Failed to disable reset database mode")
         (fun _ =>
       dbmBind (beginTransaction E) (fun _ =>
         catchStd (resetTry E schema ver) (rollbackAndRethrow E)))))
        (pushCall (.dbConfig resetDatabaseOption 1) { st with db := d1 }) := by
    show (dbmBind (dbConfigOr E resetDatabaseOption 1
      "Failed to enable reset database mode") _) st = _
    exact dbmBind_ok _ _ st _ () e1
  rw [hstep1] at hfail
  have e2 : executeMultiple E "vacuum"
      (pushCall (.dbConfig resetDatabaseOption 1) { st with db := d1 }) =
      (.ok (), pushCall (.execMultiple "vacuum")
        (pushCall (.dbConfig resetDatabaseOption 1) { st with db := d2 })) := by
    unfold executeMultiple
    rw [show (pushCall (Call.dbConfig resetDatabaseOption 1)
      { st with db := d1 } : DbState δ).db = d1 from rfl, h2]
    rfl
  rw [dbmBind_ok _ _ _ _ () e2] at hfail
  have e3 : dbConfigOr E resetDatabaseOption 0 "Failed to disable reset database mode"
      (pushCall (.execMultiple "vacuum")
        (pushCall (.dbConfig resetDatabaseOption 1) { st with db := d2 })) =
      (.ok (), pushCall (.dbConfig resetDatabaseOption 0)
        (pushCall (.execMultiple "vacuum")
          (pushCall (.dbConfig resetDatabaseOption 1) { st with db := d3 }))) := by
    unfold dbConfigOr
    rw [show (pushCall (Call.execMultiple "vacuum") (pushCall
      (Call.dbConfig resetDatabaseOption 1) { st with db := d2 }) : DbState δ).db = d2
      from rfl, h3]
    rfl
  rw [dbmBind_ok _ _ _ _ () e3] at hfail
  have e4 : beginTransaction E
      (pushCall (.dbConfig resetDatabaseOption 0)
        (pushCall (.execMultiple "vacuum")
          (pushCall (.dbConfig resetDatabaseOption 1) { st with db := d3 }))) =
      (.ok (), pushCall (.exec "begin exclusive transaction" [])
        (pushCall (.dbConfig resetDatabaseOption 0)
          (pushCall (.execMultiple "vacuum")
            (pushCall (.dbConfig resetDatabaseOption 1) { st with db := d4 })))) := by
    unfold beginTransaction executeUpdate
    rw [show (pushCall (Call.dbConfig resetDatabaseOption 0) (pushCall
      (Call.execMultiple "vacuum") (pushCall (Call.dbConfig resetDatabaseOption 1)
      { st with db := d3 })) : DbState δ).db = d3 from rfl, h4]
    rfl
  rw [dbmBind_ok _ _ _ _ () e4] at hfail
  obtain ⟨hrc, hrna⟩ := resetTry_state E schema ver
    (pushCall (.exec "begin exclusive transaction" [])
      (pushCall (.dbConfig resetDatabaseOption 0)
        (pushCall (.execMultiple "vacuum")
          (pushCall (.dbConfig resetDatabaseOption 1) { st with db := d4 }))))
  rcases hRx : resetTry E schema ver
      (pushCall (.exec "begin exclusive transaction" [])
        (pushCall (.dbConfig resetDatabaseOption 0)
          (pushCall (.execMultiple "vacuum")
            (pushCall (.dbConfig resetDatabaseOption 1) { st with db := d4 }))))
    with ⟨rr, s9⟩
  rw [hRx] at hrc hrna
  cases rr with
  | ok u =>
    rw [catchStd_ok _ _ _ _ _ hRx] at hfail
    have h0 : (Except.ok u : Except Err Unit) = .error e := congrArg Prod.fst hfail
    simp at h0
  | error er =>
    have herna : ∀ m, er ≠ .abort m := by
      intro m hm
      exact hrna m (by simp [hm])
    rw [catchStd_error _ _ _ _ _ hRx herna] at hfail
    obtain ⟨hr1, hr2, hr3⟩ := rollbackAndRethrow_state (α := Unit) E er s9
    rcases hrx : (rollbackAndRethrow E er : DbM δ Unit) s9 with ⟨rr2, s10⟩
    rw [hrx] at hr1 hr2 hr3
    rw [hrx] at hfail
    have hs : s10 = st2 := congrArg Prod.snd hfail
    subst hs
    constructor
    · rw [show s10.cachedRecords = s9.cachedRecords from hr2,
        show s9.cachedRecords = [] from hrc]
    · rw [show s10.trace = s9.trace ++ [Call.exec "rollback transaction" []] from hr3]
      simp

/-- Witness for claim C9: on `resetE` the schema script fails after the
cache was cleared inside the transaction; the pre-cached state `stA` ends
empty and a rollback was issued. -/
theorem claim9_reset_failure_witness :
    (unsafeResetDatabase resetE "create table t" 7 stA).2.cachedRecords = [] ∧
    Call.exec "rollback transaction" [] ∈
      (unsafeResetDatabase resetE "create table t" 7 stA).2.trace :=
  claim9_reset_failure resetE "create table t" 7 stA
    (unsafeResetDatabase resetE "create table t" 7 stA).2
    (.jsError "schema script failed") () () () () rfl rfl rfl rfl (by rfl)

/-! ## Claim C10: `query` marks records during iteration -/

theorem resultDictionaryGo_isOk (row : Row) (hsup : supportedRow row = true) :
    ∀ props, ∃ d, resultDictionaryGo props row = .ok d := by
  induction row with
  | nil => intro props; exact ⟨props, rfl⟩
  | cons c rest ih =>
    obtain ⟨name, v⟩ := c
    intro props
    have hsup2 : supportedRow rest = true := by
      rw [supportedRow_cons, Bool.and_eq_true] at hsup
      exact hsup.2
    cases v with
    | integer i => exact ih hsup2 _
    | float p => exact ih hsup2 _
    | text s => cases s <;> exact ih hsup2 _
    | null => exact ih hsup2 _
    | blob =>
      rw [supportedRow_cons] at hsup
      simp [supportedCol] at hsup

theorem queryLoop_monotone {δ : Type} (table : String) :
    ∀ (rows : List Row) (acc : List JSValue) (s : DbState δ) (k : String),
      k ∈ s.cachedRecords →
      k ∈ ((queryLoop table rows acc) s).2.cachedRecords := by
  intro rows
  induction rows with
  | nil => intro acc s k hk; exact hk
  | cons row rest ih =>
    intro acc s k hk
    rcases row with _ | ⟨⟨columnName, v⟩, cols⟩
    · exact hk
    · rcases hb : columnName == "id"
      · simp [queryLoop, hb]
        exact hk
      · rcases hct : columnTextStd v with _ | id
        · simp [queryLoop, hb, hct]
          exact hk
        · rcases hic : isCached (cacheKey table id) s.cachedRecords
          · rcases hrd : resultDictionary ((columnName, v) :: cols) with er | props
            · simp [queryLoop, hb, hct, hic, hrd]
              exact (mem_markAsCached k (cacheKey table id) s.cachedRecords).mpr (Or.inl hk)
            · simp [queryLoop, hb, hct, hic, hrd]
              exact ih _ _ k ((mem_markAsCached k (cacheKey table id)
                s.cachedRecords).mpr (Or.inl hk))
          · simp [queryLoop, hb, hct, hic]
            exact ih _ _ k hk

theorem queryLoop_marks {δ : Type} (table : String) :
    ∀ (good rest2 : List Row) (acc : List JSValue) (s : DbState δ),
      (∀ r ∈ good, goodRow r = true) →
      ∀ r ∈ good, cacheKey table (rowId r) ∈
        ((queryLoop table (good ++ rest2) acc) s).2.cachedRecords := by
  intro good
  induction good with
  | nil => intro rest2 acc s hgood r hr; simp at hr
  | cons g good2 ih =>
    intro rest2 acc s hgood r hr
    have hg : goodRow g = true := hgood g (List.mem_cons_self _ _)
    rcases g with _ | ⟨⟨columnName, v⟩, cols⟩
    · exact absurd hg (by decide)
    · simp only [goodRow, Bool.and_eq_true] at hg
      obtain ⟨⟨hn, hsome⟩, hsup⟩ := hg
      obtain ⟨id, hct⟩ := Option.isSome_iff_exists.mp hsome
      have hrid : rowId ((columnName, v) :: cols) = id := by
        simp [rowId, hct]
      rcases hic : isCached (cacheKey table id) s.cachedRecords
      · obtain ⟨d, hd⟩ := resultDictionaryGo_isOk ((columnName, v) :: cols) hsup []
        have hd2 : resultDictionary ((columnName, v) :: cols) = .ok d := hd
        simp only [List.cons_append]
        simp [queryLoop, hn, hct, hic, hd2]
        rcases List.mem_cons.mp hr with hrg | hr2
        · subst hrg
          rw [hrid]
          exact queryLoop_monotone table _ _ _ _
            ((mem_markAsCached _ _ _).mpr (Or.inr rfl))
        · exact ih rest2 _ _ (fun r2 hr2b => hgood r2 (List.mem_cons_of_mem _ hr2b)) r hr2
      · simp only [List.cons_append]
        simp [queryLoop, hn, hct, hic]
        rcases List.mem_cons.mp hr with hrg | hr2
        · subst hrg
          rw [hrid]
          have hmem : cacheKey table id ∈ s.cachedRecords :=
            (isCached_iff _ _).mp hic
          exact queryLoop_monotone table _ _ _ _ hmem
        · exact ih rest2 _ _ (fun r2 hr2b => hgood r2 (List.mem_cons_of_mem _ hr2b)) r hr2

/-- Claim C10: when `query` fails partway through its result rows, every
record of a well-formed prefix processed before the failing row remains
marked in the Identity Cache (marks are applied per row during iteration,
not deferred to the end), and no mark is ever removed. -/
theorem claim10_query_partial_marks {δ : Type} (E : Engine δ) (t sql : String)
    (args : List JSValue) (st st2 : DbState δ) (e : Err) (rows good rest2 : List Row)
    (hq : E.runQuery sql args st.db = .ok rows)
    (hsplit : rows = good ++ rest2)
    (hgood : ∀ r ∈ good, goodRow r = true)
    (hfail : query E t sql args st = (.error e, st2)) :
    (∀ k, k ∈ st.cachedRecords → k ∈ st2.cachedRecords) ∧
    (∀ r ∈ good, cacheKey t (rowId r) ∈ st2.cachedRecords) := by
  have hr : runQueryAll E sql args st = (.ok rows, pushCall (.query sql args) st) := by
    unfold runQueryAll
    rw [hq]
  have hquery : query E t sql args st =
      (queryLoop t rows []) (pushCall (.query sql args) st) := by
    show (dbmBind (runQueryAll E sql args) _) st = _
    exact dbmBind_ok _ _ st _ rows hr
  rw [hquery] at hfail
  have hst2 : ((queryLoop t rows []) (pushCall (.query sql args) st)).2 = st2 :=
    congrArg Prod.snd hfail
  have hmemcache : (pushCall (.query sql args) st : DbState δ).cachedRecords =
      st.cachedRecords := rfl
  constructor
  · intro k hk
    rw [← hst2]
    exact queryLoop_monotone t rows [] _ k (by rw [hmemcache]; exact hk)
  · intro r hrg
    rw [← hst2, hsplit]
    exact queryLoop_marks t good rest2 [] _ hgood r hrg

/-- Witness for claim C10: on `q10E` the query sees a good row for record
`a` and then a row with a NULL id, so it fails — yet `t$a` stays marked. -/
theorem claim10_query_partial_marks_witness :
    cacheKey "t" (rowId [("id", SqlValue.text (some "a")), ("v", SqlValue.integer 1)]) ∈
      (query q10E "t" "q" [] st0).2.cachedRecords :=
  (claim10_query_partial_marks q10E "t" "q" [] st0 (query q10E "t" "q" [] st0).2
    (.jsError "Failed to get ID of a record")
    [[("id", SqlValue.text (some "a")), ("v", SqlValue.integer 1)], [("id", SqlValue.null)]]
    [[("id", SqlValue.text (some "a")), ("v", SqlValue.integer 1)]]
    [[("id", SqlValue.null)]]
    rfl rfl (by decide) (by rfl)).2 _ (by simp)

/-! ## Claim C6: `queryAsArray` -/

theorem queryAsArrayLoop_ok_nonempty {δ : Type} (table : String) :
    ∀ (rows : List Row) (acc : List JSValue) (s : DbState δ) (out : JSValue)
      (s2 : DbState δ),
      acc.isEmpty = false →
      (queryAsArrayLoop table rows acc) s = (.ok out, s2) →
      out = .array (acc ++ shapedElems table rows s.cachedRecords) := by
  intro rows
  induction rows with
  | nil =>
    intro acc s out s2 hne hok
    have h1 : (Except.ok (JSValue.array acc) : Except Err JSValue) = .ok out :=
      congrArg Prod.fst hok
    have h2 : JSValue.array acc = out := by simpa using h1
    rw [← h2]
    simp [shapedElems]
  | cons row rest ih =>
    intro acc s out s2 hne hok
    rcases row with _ | ⟨⟨columnName, v⟩, cols⟩
    · have h1 : (Except.error (Err.abort firstColumnIdMsg) : Except Err JSValue) =
          .ok out := congrArg Prod.fst hok
      simp at h1
    · rcases hb : columnName == "id"
      · simp [queryAsArrayLoop, hb] at hok
      · rcases hct : columnTextStd v with _ | id
        · simp [queryAsArrayLoop, hb, hct] at hok
        · have hrid : rowId ((columnName, v) :: cols) = id := by simp [rowId, hct]
          rcases hic : isCached (cacheKey table id) s.cachedRecords
          · rcases hrd : resultArray ((columnName, v) :: cols) with er | values
            · simp [queryAsArrayLoop, hb, hct, hic, hrd] at hok
            · have hvals : values = rowValues ((columnName, v) :: cols) := by
                rw [resultArray_eq] at hrd
                rcases hsup : supportedRow ((columnName, v) :: cols)
                · rw [hsup] at hrd
                  simp at hrd
                · rw [hsup] at hrd
                  simpa using hrd.symm
              simp [queryAsArrayLoop, hb, hct, hic, hrd, hne] at hok
              have h3 := ih (acc ++ [JSValue.array values]) _ out s2 (by simp) hok
              rw [h3]
              simp [shapedElems, hrid, hic, hvals]
          · simp [queryAsArrayLoop, hb, hct, hic, hne] at hok
            have h3 := ih (acc ++ [JSValue.string id]) s out s2 (by simp) hok
            rw [h3]
            simp [shapedElems, hrid, hic]

theorem queryAsArrayLoop_ok_marks {δ : Type} (table : String) :
    ∀ (rows : List Row) (acc : List JSValue) (s : DbState δ) (out : JSValue)
      (s2 : DbState δ),
      (queryAsArrayLoop table rows acc) s = (.ok out, s2) →
      (∀ k, k ∈ s.cachedRecords → k ∈ s2.cachedRecords) ∧
      (∀ r ∈ rows, cacheKey table (rowId r) ∈ s2.cachedRecords) := by
  intro rows
  induction rows with
  | nil =>
    intro acc s out s2 hok
    have hs : s = s2 := congrArg Prod.snd hok
    subst hs
    exact ⟨fun k hk => hk, fun r hr => absurd hr (List.not_mem_nil r)⟩
  | cons row rest ih =>
    intro acc s out s2 hok
    rcases row with _ | ⟨⟨columnName, v⟩, cols⟩
    · have h1 : (Except.error (Err.abort firstColumnIdMsg) : Except Err JSValue) =
          .ok out := congrArg Prod.fst hok
      simp at h1
    · rcases hb : columnName == "id"
      · simp [queryAsArrayLoop, hb] at hok
      · rcases hct : columnTextStd v with _ | id
        · simp [queryAsArrayLoop, hb, hct] at hok
        · have hrid : rowId ((columnName, v) :: cols) = id := by simp [rowId, hct]
          rcases hic : isCached (cacheKey table id) s.cachedRecords
          · rcases hrd : resultArray ((columnName, v) :: cols) with er | values
            · simp [queryAsArrayLoop, hb, hct, hic, hrd] at hok
            · simp [queryAsArrayLoop, hb, hct, hic, hrd] at hok
              obtain ⟨hmono, hmarks⟩ := ih _ _ out s2 hok
              constructor
              · intro k hk
                exact hmono k ((mem_markAsCached k (cacheKey table id)
                  s.cachedRecords).mpr (Or.inl hk))
              · intro r hr
                rcases List.mem_cons.mp hr with hrg | hr2
                · subst hrg
                  rw [hrid]
                  exact hmono _ ((mem_markAsCached _ _ _).mpr (Or.inr rfl))
                · exact hmarks r hr2
          · simp [queryAsArrayLoop, hb, hct, hic] at hok
            obtain ⟨hmono, hmarks⟩ := ih _ s out s2 hok
            constructor
            · exact hmono
            · intro r hr
              rcases List.mem_cons.mp hr with hrg | hr2
              · subst hrg
                rw [hrid]
                exact hmono _ ((isCached_iff _ _).mp hic)
              · exact hmarks r hr2

/-- Claim C6: the first element of `queryAsArray`'s result is the Column
Header Array — FALSE as stated for an empty result: the header is pushed
only while processing the first row, so an empty result yields an empty
host array with no header at all. -/
theorem claim6_counterexample :
    queryAsArray okE "t" "q" [] st0 =
      (.ok (JSValue.array []), pushCall (.query "q" []) st0) := rfl

/-- Claim C6 (amended): when the result has at least one row, the first
element of the returned host array is the Column Header Array and every
subsequent element is either the id string (for a record already cached
at that row's turn) or the Positional Array shape of the row, whose
record is then marked cached; an empty result yields an empty array with
no header.  Afterwards every returned row's record is in the cache. -/
theorem claim6_queryAsArray_shape {δ : Type} (E : Engine δ) (t sql : String)
    (args : List JSValue) (st st2 : DbState δ) (rows : List Row) (out : JSValue)
    (hq : E.runQuery sql args st.db = .ok rows)
    (hok : queryAsArray E t sql args st = (.ok out, st2)) :
    out = .array (match rows with
      | [] => []
      | row :: _ =>
        JSValue.array (resultColumns row) :: shapedElems t rows st.cachedRecords) ∧
    (∀ r ∈ rows, cacheKey t (rowId r) ∈ st2.cachedRecords) := by
  have hr : runQueryAll E sql args st = (.ok rows, pushCall (.query sql args) st) := by
    unfold runQueryAll
    rw [hq]
  have hqa : queryAsArray E t sql args st =
      (queryAsArrayLoop t rows []) (pushCall (.query sql args) st) := by
    show (dbmBind (runQueryAll E sql args) _) st = _
    exact dbmBind_ok _ _ st _ rows hr
  rw [hqa] at hok
  constructor
  · cases rows with
    | nil =>
      have h1 : (Except.ok (JSValue.array ([] : List JSValue)) : Except Err JSValue) =
          .ok out := congrArg Prod.fst hok
      have h2 : JSValue.array [] = out := by simpa using h1
      rw [← h2]
    | cons row rest =>
      rcases row with _ | ⟨⟨columnName, v⟩, cols⟩
      · have h1 : (Except.error (Err.abort firstColumnIdMsg) : Except Err JSValue) =
            .ok out := congrArg Prod.fst hok
        simp at h1
      · rcases hb : columnName == "id"
        · simp [queryAsArrayLoop, hb] at hok
        · rcases hct : columnTextStd v with _ | id
          · simp [queryAsArrayLoop, hb, hct] at hok
          · have hrid : rowId ((columnName, v) :: cols) = id := by simp [rowId, hct]
            rcases hic : isCached (cacheKey t id) st.cachedRecords
            · rcases hrd : resultArray ((columnName, v) :: cols) with er | values
              · simp [queryAsArrayLoop, hb, hct, hic, hrd, pushCall] at hok
              · have hvals : values = rowValues ((columnName, v) :: cols) := by
                  rw [resultArray_eq] at hrd
                  rcases hsup : supportedRow ((columnName, v) :: cols)
                  · rw [hsup] at hrd
                    simp at hrd
                  · rw [hsup] at hrd
                    simpa using hrd.symm
                simp [queryAsArrayLoop, hb, hct, hic, hrd, pushCall] at hok
                have h3 := queryAsArrayLoop_ok_nonempty t rest
                  [JSValue.array (resultColumns ((columnName, v) :: cols)),
                   JSValue.array values] _ out st2 (by simp) hok
                rw [h3]
                simp [shapedElems, hrid, hic, hvals]
            · simp [queryAsArrayLoop, hb, hct, hic, pushCall] at hok
              have h3 := queryAsArrayLoop_ok_nonempty t rest
                [JSValue.array (resultColumns ((columnName, v) :: cols)),
                 JSValue.string id] _ out st2 (by simp) hok
              rw [h3]
              simp [shapedElems, hrid, hic]
  · exact fun r hr2 =>
      (queryAsArrayLoop_ok_marks t rows [] _ out st2 hok).2 r hr2

/-- Witness for claim C6's amended theorem on `qaE` with record `b`
already cached: the result starts with the header array, row `a` appears
as a positional array (and is marked), row `b` as its id string. -/
theorem claim6_queryAsArray_shape_witness :
    JSValue.array [JSValue.array [JSValue.string "id", JSValue.string "n"],
        JSValue.array [JSValue.string "a", JSValue.number 1], JSValue.string "b"] =
      JSValue.array (match rowsAB with
        | [] => []
        | row :: _ =>
          JSValue.array (resultColumns row) :: shapedElems "t" rowsAB stB.cachedRecords) ∧
    cacheKey "t" (rowId [("id", SqlValue.text (some "a")), ("n", SqlValue.integer 1)]) ∈
      (queryAsArray qaE "t" "q" [] stB).2.cachedRecords :=
  ⟨(claim6_queryAsArray_shape qaE "t" "q" [] stB (queryAsArray qaE "t" "q" [] stB).2
      rowsAB
      (JSValue.array [JSValue.array [JSValue.string "id", JSValue.string "n"],
        JSValue.array [JSValue.string "a", JSValue.number 1], JSValue.string "b"])
      rfl (by rfl)).1,
   (claim6_queryAsArray_shape qaE "t" "q" [] stB (queryAsArray qaE "t" "q" [] stB).2
      rowsAB
      (JSValue.array [JSValue.array [JSValue.string "id", JSValue.string "n"],
        JSValue.array [JSValue.string "a", JSValue.number 1], JSValue.string "b"])
      rfl (by rfl)).2 _ (by simp [rowsAB])⟩

end Watermelon
